import Mathlib

/-! Database start-up check (`core/database/check.go`)

A shallow embedding of `Check`, `GetSQLVariant` and `GetSQLVersion` together with the
parts of the Go standard library they call (`strings`, `strconv`, `fmt`).

Modelling conventions:

* a Go `string` is its sequence of bytes, `List Nat` with every element below 256;
* a Go `int` is a 64-bit signed integer, modelled as `Int`; the only place where the
  width matters is the range check inside `strconv.Atoi`;
* a run-time panic (index out of range) is an explicit outcome, never a default value;
* the database handle is an oracle answering each SQL text with an error or with rows;
* writes to the shared state (`web.SiteInfo`, `runtime.Flags.SiteMode`, `runtime.DbVariant`,
  `dbCheckOK`) and the queries sent to the database are recorded, in order, in a trace;
* calls to `runtime.Log` and the deferred `streamutil.Close(rows)` do not touch that
  state and are not recorded.
-/

set_option autoImplicit false

deriving instance DecidableEq for Except

/-- A Go string: the list of its bytes. -/
abbrev GoString := List Nat

/-- The bytes (UTF-8) of a string literal of the source. -/
def str (s : String) : GoString :=
  (s.data.flatMap String.utf8EncodeChar).map UInt8.toNat

/-! ## Package `strings` -/

namespace strings

/-- The Go call `strings.Split(s, sep)` for a one-byte separator `sep`, which is how every
call site of the source uses it: the pieces between the occurrences of `sep`; a string
without `sep` (the empty string included) gives one piece. -/
def Split (s : GoString) (sep : Nat) : List GoString :=
  match s with
  | [] => [[]]
  | c :: cs =>
    if c = sep then [] :: Split cs sep
    else
      match Split cs sep with
      | [] => [[c]]
      | piece :: pieces => (c :: piece) :: pieces

/-- The Go call `strings.Index(s, sep)` for a one-byte `sep`: the offset of the first
occurrence, or `-1`. -/
def Index (s : GoString) (sep : Nat) : Int :=
  match s with
  | [] => -1
  | c :: cs =>
    if c = sep then 0
    else if Index cs sep < 0 then -1 else Index cs sep + 1

/-- The Go call `strings.HasPrefix(s, prefix)`. -/
def HasPrefix (s pre : GoString) : Bool :=
  pre.isPrefixOf s

/-- The Go call `strings.Contains(s, substr)`: `substr` occurs in `s` at some offset. -/
def Contains (s substr : GoString) : Bool :=
  match s with
  | [] => substr.isEmpty
  | c :: cs => substr.isPrefixOf (c :: cs) || Contains cs substr

/-- Lower-casing of one ASCII byte. -/
def lowerASCII (c : Nat) : Nat :=
  if 65 ≤ c ∧ c ≤ 90 then c + 32 else c

/-- The Go call `strings.ToLower(s)`. A string of ASCII bytes only takes the byte-wise
path of the library. Any other string goes through `Map(unicode.ToLower, s)`, which
depends on the case tables of package `unicode`; that mapping is the parameter
`unicodeLower`. -/
def ToLower (unicodeLower : GoString → GoString) (s : GoString) : GoString :=
  if s.all (fun c => decide (c < 128)) then s.map lowerASCII else unicodeLower s

/-- The UTF-8 encodings of the code points for which `unicode.IsSpace` holds. -/
def spaces : List GoString :=
  ["\t", "\n", "\x0b", "\x0c", "\r", " ", "\u0085", "\u00a0", "\u1680",
   "\u2000", "\u2001", "\u2002", "\u2003", "\u2004", "\u2005", "\u2006", "\u2007",
   "\u2008", "\u2009", "\u200a", "\u2028", "\u2029", "\u202f", "\u205f", "\u3000"].map str

/-- Drop white space from the front of `s`; `fuel` bounds the number of steps. -/
def trimLeft (fuel : Nat) (s : GoString) : GoString :=
  match fuel with
  | 0 => s
  | fuel + 1 =>
    match spaces.find? (fun sp => sp.isPrefixOf s) with
    | some sp => trimLeft fuel (s.drop sp.length)
    | none => s

/-- Drop white space from the end of `s`; `fuel` bounds the number of steps. -/
def trimRight (fuel : Nat) (s : GoString) : GoString :=
  match fuel with
  | 0 => s
  | fuel + 1 =>
    match spaces.find? (fun sp => sp.reverse.isPrefixOf s.reverse) with
    | some sp => trimRight fuel (s.take (s.length - sp.length))
    | none => s

/-- The Go call `strings.TrimSpace(s)`: `s` without leading and trailing white space,
as defined by Unicode. Every step removes at least one byte, so `s.length` steps
are enough on either side. -/
def TrimSpace (s : GoString) : GoString :=
  trimRight s.length (trimLeft s.length s)

end strings

/-! ## Package `strconv` -/

namespace strconv

/-- The two kinds of `*strconv.NumError` that `Atoi` returns. -/
inductive NumError where
  | ErrSyntax
  | ErrRange
  deriving DecidableEq, Repr

/-- Width of the Go type `int`. -/
def intSize : Nat := 64

/-- The digit loop of `strconv.ParseUint(s, 10, 64)`: `n` is the value read so far. A
byte that is not a decimal digit is a syntax error, a value that does not fit 64 bits
is a range error. -/
def parseDigits (s : GoString) (n : Nat) : Except NumError Nat :=
  match s with
  | [] => .ok n
  | c :: cs =>
    if 48 ≤ c ∧ c ≤ 57 then
      if n * 10 + (c - 48) < 2 ^ intSize then parseDigits cs (n * 10 + (c - 48))
      else .error .ErrRange
    else .error .ErrSyntax

/-- The Go call `strconv.Atoi(s)`: an optional sign followed by one or more decimal
digits, with a value that fits `int`. -/
def Atoi (s : GoString) : Except NumError Int :=
  match s with
  | [] => .error .ErrSyntax
  | c :: cs =>
    let digits := if c = 45 ∨ c = 43 then cs else c :: cs
    if digits = [] then .error .ErrSyntax
    else
      match parseDigits digits 0 with
      | .error e => .error e
      | .ok un =>
        if c = 45 then
          if un > 2 ^ (intSize - 1) then .error .ErrRange else .ok (-(un : Int))
        else
          if un ≥ 2 ^ (intSize - 1) then .error .ErrRange else .ok (un : Int)

/-- The decimal digits of `n`, least significant first; `fuel` bounds the number of
digits. -/
def digitsRev (fuel : Nat) (n : Nat) : GoString :=
  match fuel with
  | 0 => []
  | fuel + 1 => if n < 10 then [n + 48] else (n % 10 + 48) :: digitsRev fuel (n / 10)

/-- Decimal rendering of a natural number, without leading zeros. -/
def formatNat (n : Nat) : GoString :=
  (digitsRev (n + 1) n).reverse

/-- The Go call `strconv.Itoa(i)`, which is also what the verb `%d` of `fmt.Sprintf`
prints. -/
def Itoa (i : Int) : GoString :=
  if i < 0 then 45 :: formatNat i.natAbs else formatNat i.natAbs

end strconv

/-! ## Package `env` -/

namespace env

/-- Modelled from the spec: the type `env.DbVariant` and its three constants are declared
outside this file; the spec gives an enumeration of engine families. -/
inductive DbVariant where
  | DbVariantMySQL
  | DBVariantPercona
  | DBVariantMariaDB
  deriving DecidableEq, Repr

/-- Modelled from the spec: the constants `env.SiteModeNormal`, `env.SiteModeSetup` and
`env.SiteModeBadDB` are declared outside this file; the spec gives the operating mode
as an enumeration of pairwise distinct values. -/
inductive SiteMode where
  | SiteModeNormal
  | SiteModeSetup
  | SiteModeBadDB
  deriving DecidableEq, Repr

end env

/-! ## Package `database` -/

namespace database

open env

/-- A run-time panic of the Go program. -/
inductive Panic where
  | indexOutOfRange (index length : Nat)
  deriving DecidableEq, Repr

/-- The errors that `GetSQLVersion` returns. -/
inductive VersionError where
  /-- The value `errors.New("MySQL version not of the form a.b.c")`. -/
  | notABC
  /-- The error of `strconv.Atoi` on the component `val`. -/
  | atoi (val : GoString) (e : strconv.NumError)
  deriving DecidableEq, Repr

/-- The function `GetSQLVariant` of the source. -/
def GetSQLVariant (unicodeLower : GoString → GoString) (dbType vc : GoString) : DbVariant :=
  let vc := strings.ToLower unicodeLower vc
  let dbType := strings.ToLower unicodeLower dbType
  -- determine type from database
  if strings.Contains vc (str "mariadb") then .DBVariantMariaDB
  else if strings.Contains vc (str "percona") then .DBVariantPercona
  else if strings.Contains vc (str "mysql") then .DbVariantMySQL
  -- now determine type from command line switch
  else if strings.Contains dbType (str "mariadb") then .DBVariantMariaDB
  else if strings.Contains dbType (str "percona") then .DBVariantPercona
  else if strings.Contains dbType (str "mysql") then .DbVariantMySQL
  else .DbVariantMySQL

/-- The loop `for key, val := range vs` of `GetSQLVersion`: `vs` is what is left to visit,
`key` the index of its head, `ints` the slice being filled. The store `ints[key] = num`
panics when `key` is not an index of `ints`. -/
def GetSQLVersion.loop (vs : List GoString) (key : Nat) (ints : List Int) :
    Except Panic (List Int × Option VersionError) :=
  match vs with
  | [] => .ok (ints, none)
  | val :: rest =>
    match strconv.Atoi val with
    | .error e => .ok (ints, some (.atoi val e))
    | .ok num =>
      if key < ints.length then GetSQLVersion.loop rest (key + 1) (ints.set key num)
      else .error (.indexOutOfRange key ints.length)

/-- The function `GetSQLVersion` of the source: the pair `(ints, err)` it returns, or the
panic it raises. -/
def GetSQLVersion (v : GoString) : Except Panic (List Int × Option VersionError) :=
  let ints : List Int := [0, 0, 0]
  let pos := strings.Index v 45
  let v := if pos > 1 then v.take pos.toNat else v
  let vs := strings.Split v 46
  if vs.length < 3 then .ok (ints, some .notABC)
  else GetSQLVersion.loop vs 0 ints

/-- The loop `for k, v := range verInts` of `Check`: `rest` is what is left of `verInts`
and `k` the index of its head. The result is `none` when the loop ends (or breaks)
without a complaint and `some k` when component `k` is too low; the read `verNums[k]`
panics when `k` is not an index of `verNums`. -/
def versionGate.loop (verNums verInts : List Int) (k : Nat) (rest : List Int) :
    Except Panic (Option Nat) :=
  match rest with
  | [] => .ok none
  | v :: rest =>
    -- If major release is higher then skip minor/patch checks (e.g. 8.x.x > 5.x.x)
    if k = 0 ∧ verNums.length > 0 ∧ verNums.getD 0 0 > verInts.getD 0 0 then .ok none
    else
      match verNums.get? k with
      | none => .error (.indexOutOfRange k verNums.length)
      | some a => if a < v then .ok (some k) else versionGate.loop verNums verInts (k + 1) rest

/-- The version loop of `Check` run from its start. -/
def versionGate (verNums verInts : List Int) : Except Panic (Option Nat) :=
  versionGate.loop verNums verInts 0 verInts

/-- The minimum version that `Check` asks of a variant. -/
def minVersion (variant : DbVariant) : List Int :=
  if variant = .DBVariantMariaDB then [10, 3, 0] -- Minimum MariaDB version
  else [5, 7, 10] -- Minimum MySQL version

/-- The Go call `fmt.Sprintf("%d.%d.%d", verInts[0], verInts[1], verInts[2])`. -/
def wantVersion (verInts : List Int) : GoString :=
  strconv.Itoa (verInts.getD 0 0) ++ str "." ++ strconv.Itoa (verInts.getD 1 0) ++ str "." ++
    strconv.Itoa (verInts.getD 2 0)

/-- The row of server settings read by `rows.Scan`. -/
structure Metadata where
  version : GoString
  dbComment : GoString
  charset : GoString
  collation : GoString
  deriving DecidableEq, Repr

/-- What the driver answers on the result set of the first query: whether `rows.Next()`
finds a row, what `rows.Scan` then gives (the row or an error text), and `rows.Err()`. -/
structure Rows where
  Next : Bool
  Scan : Except GoString Metadata
  Err : Option GoString

/-- The database handle `runtime.Db` as an oracle: for each SQL text the error text or
the result. -/
structure Db where
  Query : GoString → Except GoString Rows
  Select : GoString → Except GoString (List GoString)

/-- The configuration that `Check` reads: `runtime.Flags.DBConn` and
`runtime.Flags.DBType`. -/
structure Flags where
  DBConn : GoString
  DBType : GoString

/-- One observable step of `Check`. -/
inductive Event where
  | query (sql : GoString)
  | select (sql : GoString)
  | setDBname (s : GoString)
  | setIssue (s : GoString)
  | setSiteMode (m : SiteMode)
  | setDbVariant (v : DbVariant)
  | setDbCheckOK
  deriving DecidableEq, Repr

/-- The state that `Check` writes: `web.SiteInfo.DBname`, `web.SiteInfo.Issue`,
`runtime.Flags.SiteMode`, `runtime.DbVariant`, the package variable `dbCheckOK`, and the
trace of the steps taken so far. -/
structure World where
  DBname : GoString
  Issue : GoString
  SiteMode : SiteMode
  DbVariant : DbVariant
  dbCheckOK : Bool
  trace : List Event
  deriving DecidableEq, Repr

/-- How a call of `Check` ends. -/
inductive Outcome where
  | returned (ok : Bool)
  | panicked (p : Panic)
  deriving DecidableEq, Repr

/-- Record a query sent to the database. -/
def World.emit (w : World) (e : Event) : World :=
  { w with trace := w.trace ++ [e] }

/-- The assignment `web.SiteInfo.DBname = s`. -/
def World.setDBname (w : World) (s : GoString) : World :=
  { w with DBname := s, trace := w.trace ++ [.setDBname s] }

/-- The assignment `web.SiteInfo.Issue = s`. -/
def World.setIssue (w : World) (s : GoString) : World :=
  { w with Issue := s, trace := w.trace ++ [.setIssue s] }

/-- The assignment `runtime.Flags.SiteMode = m`. -/
def World.setSiteMode (w : World) (m : env.SiteMode) : World :=
  { w with SiteMode := m, trace := w.trace ++ [.setSiteMode m] }

/-- The assignment `runtime.DbVariant = v`. -/
def World.setDbVariant (w : World) (v : env.DbVariant) : World :=
  { w with DbVariant := v, trace := w.trace ++ [.setDbVariant v] }

/-- The assignment `dbCheckOK = true`. -/
def World.setDbCheckOK (w : World) : World :=
  { w with dbCheckOK := true, trace := w.trace ++ [.setDbCheckOK] }

/-- The failure exit used throughout `Check`: set `Issue`, set the mode to
`SiteModeBadDB`, return `false`. -/
def World.badDB (w : World) (issue : GoString) : World × Outcome :=
  ((w.setIssue issue).setSiteMode .SiteModeBadDB, .returned false)

/-- The SQL text of the first query of `Check`. -/
def metadataSQL : GoString :=
  str "SELECT VERSION() AS version, @@version_comment as comment, @@character_set_database AS charset, @@collation_database AS collation"

/-- The SQL text that counts the base tables of schema `dbname`. -/
def countSQL (dbname : GoString) : GoString :=
  str "SELECT COUNT(*) FROM information_schema.tables WHERE table_schema = '" ++ dbname ++
    str "' and TABLE_TYPE='BASE TABLE'"

/-- The SQL text that probes `table`. -/
def probeSQL (table : GoString) : GoString :=
  str "SELECT 1 FROM " ++ table ++ str " LIMIT 1;"

/-- The required tables, in the order of the source. -/
def tables : List GoString :=
  [str "account", str "attachment", str "document", str "label", str "organization",
   str "page", str "revision", str "search", str "user"]

/-- The loop `for _, table := range tables` of `Check` (lines 131-139), up to the
first probe that fails: the world with the probes recorded, and that table if any. -/
def probeTables (db : Db) (ts : List GoString) (w : World) : World × Option GoString :=
  match ts with
  | [] => (w, none)
  | table :: rest =>
    let w := w.emit (.select (probeSQL table))
    match db.Select (probeSQL table) with
    | .error _ => (w, some table)
    | .ok _ => probeTables db rest w

/-- Lines 125-145 of `Check`: the required tables and the successful exit. -/
def checkTables (db : Db) (w : World) : World × Outcome :=
  match probeTables db tables w with
  | (w, some table) =>
    w.badDB (str "MySQL database is not empty, but does not contain table: " ++ table)
  | (w, none) =>
    ((((w.setSiteMode .SiteModeNormal).setDBname []).setDbCheckOK), .returned true)

/-- Lines 108-123 of `Check`, followed by the rest: the count of base tables. -/
def checkEmpty (db : Db) (w : World) : World × Outcome :=
  let sql := countSQL w.DBname
  let w := w.emit (.select sql)
  match db.Select sql with
  | .error err => w.badDB (str "Can't get MySQL number of tables: " ++ err)
  | .ok flds =>
    match flds with
    | [] => (w, .panicked (.indexOutOfRange 0 0))
    | fld :: _ =>
      if strings.TrimSpace fld = str "0" then (w.setSiteMode .SiteModeSetup, .returned false)
      else checkTables db w

/-- The two tests of lines 93-106 of `Check`: the text for `Issue` when the character
set or the collation is refused, `none` when both are accepted. -/
def encodingIssue (charset collation : GoString) : Option GoString :=
  if charset ≠ str "utf8" ∧ charset ≠ str "utf8mb4" then
    some (str "MySQL character set not utf8/utf8mb4: " ++ charset)
  else if !strings.HasPrefix collation (str "utf8") then
    some (str "MySQL collation sequence not utf8...: " ++ collation)
  else none

/-- Lines 93-106 of `Check`, followed by the rest: character set and collation. -/
def checkEncoding (db : Db) (charset collation : GoString) (w : World) : World × Outcome :=
  match encodingIssue charset collation with
  | some issue => w.badDB issue
  | none => checkEmpty db w

/-- Lines 61-91 of `Check`, followed by the rest: variant, version and the version
gate. -/
def checkVersion (unicodeLower : GoString → GoString) (db : Db) (flags : Flags)
    (md : Metadata) (w : World) : World × Outcome :=
  let variant := GetSQLVariant unicodeLower flags.DBType md.dbComment
  let w := w.setDbVariant variant
  match GetSQLVersion md.version with
  | .error p => (w, .panicked p)
  | .ok (verNums, _) =>
    let verInts := minVersion variant
    match versionGate verNums verInts with
    | .error p => (w, .panicked p)
    | .ok (some k) =>
      w.badDB (str "MySQL version element " ++ strconv.Itoa (k + 1) ++ str " of '" ++ md.version ++
        str "' not high enough, need at least version " ++ wantVersion verInts)
    | .ok none => checkEncoding db md.charset md.collation w

/-- Lines 45-52 of `Check`: the variables filled by the scan and the error, if any, of
reading the result set. Without a row the variables keep their zero value. -/
def readRow (rows : Rows) : Metadata × Option GoString :=
  let empty : Metadata := ⟨[], [], [], []⟩
  if rows.Next then
    match rows.Scan with
    | .error err => (empty, some err)
    | .ok md => (md, rows.Err)
  else (empty, rows.Err)

/-- Lines 32-35 of `Check`: the schema name is the last piece of the connection string
after a slash, up to the first question mark. The two index expressions of the source
cannot fail, since `strings.Split` never returns an empty slice. -/
def deriveDBname (flags : Flags) (w : World) : World :=
  let csBits := strings.Split flags.DBConn 47
  if csBits.length > 1 then
    w.setDBname ((strings.Split (csBits.getLastD []) 63).headD [])
  else w

/-- The function `Check` of the source, run on the world `w`. -/
def Check (unicodeLower : GoString → GoString) (db : Db) (flags : Flags) (w : World) :
    World × Outcome :=
  let w := deriveDBname flags w
  let w := w.emit (.query metadataSQL)
  match db.Query metadataSQL with
  | .error err => w.badDB (str "Can't get MySQL configuration: " ++ err)
  | .ok rows =>
    match readRow rows with
    | (_, some err) => w.badDB (str "no MySQL configuration return issue: " ++ err)
    | (md, none) => checkVersion unicodeLower db flags md w

/-- The modes written to `runtime.Flags.SiteMode`, in order, in a trace. -/
def modesWritten (trace : List Event) : List SiteMode :=
  trace.filterMap (fun e => match e with
    | .setSiteMode m => some m
    | _ => none)

/-- The texts written to `web.SiteInfo.Issue`, in order, in a trace. -/
def issuesWritten (trace : List Event) : List GoString :=
  trace.filterMap (fun e => match e with
    | .setIssue s => some s
    | _ => none)

/-- The SQL texts sent through `runtime.Db.Select`, in order, in a trace. -/
def selectsSent (trace : List Event) : List GoString :=
  trace.filterMap (fun e => match e with
    | .select sql => some sql
    | _ => none)

end database


/-! ## Specification-side definitions -/

namespace spec

open database env

/-- The engine families in the priority order of the spec, with their names. -/
def families : List (GoString × DbVariant) :=
  [(str "mariadb", .DBVariantMariaDB), (str "percona", .DBVariantPercona),
   (str "mysql", .DbVariantMySQL)]

/-- The first family, in priority order, whose name occurs in `text`. -/
def firstFamily (text : GoString) : Option DbVariant :=
  (families.find? (fun f => strings.Contains text f.1)).map (fun f => f.2)

/-- The variant resolution as the spec words it: the first family named in the
lower-cased comment, else the first family named in the lower-cased hint, else the
default family. -/
def resolveVariant (lower : GoString → GoString) (hint commentText : GoString) : DbVariant :=
  match firstFamily (lower commentText) with
  | some v => v
  | none =>
    match firstFamily (lower hint) with
    | some v => v
    | none => .DbVariantMySQL

end spec

/-! ### The order of the checks -/

namespace spec

open database env

/-- What each check of the pipeline finds, taken on its own. -/
structure Findings where
  metadataError : Bool
  versionGateFails : Bool
  charsetRefused : Bool
  collationRefused : Bool
  countQueryFails : Bool
  countIsZero : Bool
  probeFails : Bool
  deriving DecidableEq, Repr

/-- The transition rules in their fixed order: the first rule that applies gives the
mode. -/
def decideMode (f : Findings) : SiteMode :=
  if f.metadataError then .SiteModeBadDB
  else if f.versionGateFails then .SiteModeBadDB
  else if f.charsetRefused then .SiteModeBadDB
  else if f.collationRefused then .SiteModeBadDB
  else if f.countQueryFails then .SiteModeBadDB
  else if f.countIsZero then .SiteModeSetup
  else if f.probeFails then .SiteModeBadDB
  else .SiteModeNormal

/-- The probe of the table by this SQL text fails. -/
def selectFails (db : Db) (sql : GoString) : Bool :=
  match db.Select sql with
  | .error _ => true
  | .ok _ => false

/-- The settings that the checks after the metadata fetch look at: the row read, or the
zero values when the query fails. -/
def settings (db : Db) : Metadata :=
  match db.Query metadataSQL with
  | .error _ => ⟨[], [], [], []⟩
  | .ok rows => (readRow rows).1

/-- The finding of every check for a database, a configuration and a starting state,
each computed whether or not the run would get to it. -/
def findings (unicodeLower : GoString → GoString) (db : Db) (flags : Flags) (w : World) :
    Findings where
  metadataError :=
    match db.Query metadataSQL with
    | .error _ => true
    | .ok rows => (readRow rows).2.isSome
  versionGateFails :=
    match GetSQLVersion (settings db).version with
    | .error _ => false
    | .ok (verNums, _) =>
      match versionGate verNums
          (minVersion (GetSQLVariant unicodeLower flags.DBType (settings db).dbComment)) with
      | .ok (some _) => true
      | _ => false
  charsetRefused :=
    decide ((settings db).charset ≠ str "utf8" ∧ (settings db).charset ≠ str "utf8mb4")
  collationRefused := !strings.HasPrefix (settings db).collation (str "utf8")
  countQueryFails := selectFails db (countSQL (deriveDBname flags w).DBname)
  countIsZero :=
    match db.Select (countSQL (deriveDBname flags w).DBname) with
    | .ok (fld :: _) => decide (strings.TrimSpace fld = str "0")
    | _ => false
  probeFails := tables.any (fun table => selectFails db (probeSQL table))

/-- The tables that the probing loop visits: all of them up to and including the first
whose probe fails. -/
def probed (db : Db) (ts : List GoString) : List GoString :=
  match ts with
  | [] => []
  | table :: rest =>
    if selectFails db (probeSQL table) then [table] else table :: probed db rest

end spec

/-! ### The text that `GetSQLVersion` splits -/

namespace spec

/-- The text that `GetSQLVersion` splits on ".": the input cut before its first hyphen
when that hyphen is at offset 2 or later, and the whole input otherwise. -/
def splitText (v : GoString) : GoString :=
  if strings.Index v 45 > 1 then v.take (strings.Index v 45).toNat else v

end spec

/-! ### States of a run -/

namespace spec

open database env

/-- The state `w1` agrees with `w0` on the schema name, the issue, the mode and the
flag `dbCheckOK`, and its trace holds the same issues and modes: between the two, `Check`
only sent queries or stored the variant. -/
def SameState (w0 w1 : World) : Prop :=
  w1.DBname = w0.DBname ∧ w1.Issue = w0.Issue ∧ w1.SiteMode = w0.SiteMode
    ∧ w1.dbCheckOK = w0.dbCheckOK
    ∧ issuesWritten w1.trace = issuesWritten w0.trace
    ∧ modesWritten w1.trace = modesWritten w0.trace

end spec

/-! ## Concrete runs -/

namespace fixture

open database env

/-- A connection string and a hint as an operator would set them. -/
def flags : Flags :=
  ⟨str "documize:secret@tcp(localhost:3306)/documize?charset=utf8", str "mysql"⟩

/-- The state before `Check` runs: every variable has its zero value. -/
def world : World :=
  ⟨[], [], .SiteModeNormal, .DbVariantMySQL, false, []⟩

/-- A result set with one row, read without error. -/
def rowsOf (md : Metadata) : Rows :=
  ⟨true, .ok md, none⟩

/-- A database that reports the settings `md`, answers the count query for schema
`documize` with `count`, and lacks the tables `missing`. -/
def dbOf (md : Metadata) (count : Except GoString (List GoString))
    (missing : List GoString) : Db where
  Query := fun _ => .ok (rowsOf md)
  Select := fun sql =>
    if sql = countSQL (str "documize") then count
    else if missing.any (fun t => decide (sql = probeSQL t)) then
      .error (str "Error 1146: Table does not exist")
    else .ok []

/-- The settings of a MySQL server of version `version` with a Unicode encoding. -/
def mysql (version : GoString) : Metadata :=
  ⟨version, str "MySQL Community Server (GPL)", str "utf8mb4", str "utf8mb4_unicode_ci"⟩

end fixture

namespace fixture

open database env

/-- A database whose metadata query succeeds with an empty result set: `rows.Next()`
is false and `rows.Err()` is nil. -/
def noRowDb : Db where
  Query := fun _ => .ok ⟨false, .error (str "sql: Rows are closed"), none⟩
  Select := fun _ => .ok [str "12"]

end fixture

/-! ## Theorems -/

namespace database

open env

/-! ### Variant detection -/

/-- Claim C5. `GetSQLVariant` returns the first of mariadb, percona, mysql whose name
occurs in the lower-cased comment, else the first of them whose name occurs in the
lower-cased hint, else MySQL. Hence two calls whose arguments have the same lower-cased
texts agree, and when the comment names a family the hint has no influence. -/
theorem GetSQLVariant_eq_resolveVariant (unicodeLower : GoString → GoString)
    (dbType vc : GoString) :
    GetSQLVariant unicodeLower dbType vc
        = spec.resolveVariant (strings.ToLower unicodeLower) dbType vc
    ∧ (∀ dbType2 vc2 : GoString,
        strings.ToLower unicodeLower vc2 = strings.ToLower unicodeLower vc →
        strings.ToLower unicodeLower dbType2 = strings.ToLower unicodeLower dbType →
        GetSQLVariant unicodeLower dbType2 vc2 = GetSQLVariant unicodeLower dbType vc)
    ∧ (spec.firstFamily (strings.ToLower unicodeLower vc) ≠ none →
        ∀ dbType2 : GoString,
          GetSQLVariant unicodeLower dbType2 vc = GetSQLVariant unicodeLower dbType vc) := by
  have key : ∀ d c : GoString, GetSQLVariant unicodeLower d c
      = spec.resolveVariant (strings.ToLower unicodeLower) d c := by
    intro d c
    simp only [GetSQLVariant, spec.resolveVariant, spec.firstFamily, spec.families,
      List.find?_cons, List.find?_nil]
    split_ifs <;> simp_all
  refine ⟨key dbType vc, ?_, ?_⟩
  · intro dbType2 vc2 h1 h2
    simp only [GetSQLVariant, h1, h2]
  · intro h dbType2
    rw [key, key]
    unfold spec.resolveVariant
    cases hf : spec.firstFamily (strings.ToLower unicodeLower vc) with
    | none => exact absurd hf h
    | some v => rfl

/-- A Percona hint loses against a comment that names MariaDB, whatever the letter
case of either. -/
theorem GetSQLVariant_eq_resolveVariant_witness :
    GetSQLVariant id (str "PERCONA") (str "MariaDB Server") = .DBVariantMariaDB
    ∧ GetSQLVariant id (str "percona") (str "MARIADB server")
        = GetSQLVariant id (str "PERCONA") (str "MariaDB Server")
    ∧ GetSQLVariant id (str "mysql") (str "MariaDB Server")
        = GetSQLVariant id (str "PERCONA") (str "MariaDB Server") :=
  ⟨by decide,
   (GetSQLVariant_eq_resolveVariant id (str "PERCONA") (str "MariaDB Server")).2.1
      (str "percona") (str "MARIADB server") (by decide) (by decide),
   (GetSQLVariant_eq_resolveVariant id (str "PERCONA") (str "MariaDB Server")).2.2
      (by decide) (str "mysql")⟩

/-! ### Version gate -/

/-- The version loop on two triples, as a decision list. -/
theorem versionGate_triple (a1 a2 a3 m1 m2 m3 : Int) :
    versionGate [a1, a2, a3] [m1, m2, m3] =
      if a1 > m1 then .ok none
      else if a1 < m1 then .ok (some 0)
      else if a2 < m2 then .ok (some 1)
      else if a3 < m3 then .ok (some 2)
      else .ok none := by
  simp only [versionGate, versionGate.loop]
  by_cases h1 : a1 > m1 <;> by_cases h2 : a1 < m1 <;> by_cases h3 : a2 < m2 <;>
    by_cases h4 : a3 < m3 <;> simp [h1, h2, h3, h4]

/-- The slice filled by the loop of `GetSQLVersion` keeps its length. -/
theorem GetSQLVersion_loop_length (vs : List GoString) :
    ∀ (key : Nat) (ints res : List Int) (e : Option VersionError),
      GetSQLVersion.loop vs key ints = .ok (res, e) → res.length = ints.length := by
  induction vs with
  | nil =>
    intro key ints res e h
    simp only [GetSQLVersion.loop, Except.ok.injEq, Prod.mk.injEq] at h
    rw [← h.1]
  | cons val rest ih =>
    intro key ints res e h
    unfold GetSQLVersion.loop at h
    split at h
    · simp only [Except.ok.injEq, Prod.mk.injEq] at h
      rw [← h.1]
    · split at h
      · have := ih _ _ _ _ h
        simpa using this
      · exact absurd h (by simp)

/-- Whatever `GetSQLVersion` returns, the tuple has three components. -/
theorem GetSQLVersion_length (v : GoString) (res : List Int) (e : Option VersionError)
    (h : GetSQLVersion v = .ok (res, e)) : res.length = 3 := by
  simp only [GetSQLVersion] at h
  generalize strings.Split _ 46 = vs at h
  by_cases hl : vs.length < 3
  · rw [if_pos hl] at h
    simp only [Except.ok.injEq, Prod.mk.injEq] at h
    rw [← h.1]; rfl
  · rw [if_neg hl] at h
    exact GetSQLVersion_loop_length _ _ _ _ _ h

/-- A list of length three is a triple. -/
theorem triple_of_length {α : Type} (l : List α) (h : l.length = 3) :
    ∃ a b c, l = [a, b, c] := by
  match l, h with
  | [a, b, c], _ => exact ⟨a, b, c, rfl⟩

/-- The two minimum versions are triples. -/
theorem minVersion_triple (variant : DbVariant) :
    ∃ m1 m2 m3, minVersion variant = [m1, m2, m3] := by
  unfold minVersion
  split_ifs
  · exact ⟨10, 3, 0, rfl⟩
  · exact ⟨5, 7, 10, rfl⟩

/-- When the version loop complains about component `k`, that is the first component
below its minimum. -/
theorem versionGate_fail_first (a1 a2 a3 m1 m2 m3 : Int) (k : Nat)
    (h : versionGate [a1, a2, a3] [m1, m2, m3] = .ok (some k)) :
    k < 3 ∧ [a1, a2, a3].getD k 0 < [m1, m2, m3].getD k 0
      ∧ ∀ j, j < k → [m1, m2, m3].getD j 0 ≤ [a1, a2, a3].getD j 0 := by
  rw [versionGate_triple] at h
  by_cases h1 : a1 > m1
  · simp [h1] at h
  by_cases h2 : a1 < m1
  · simp only [h1, h2, if_true, if_false, Except.ok.injEq, Option.some.injEq] at h
    subst h
    exact ⟨by omega, by simpa using h2, by intro j hj; omega⟩
  by_cases h3 : a2 < m2
  · simp only [h1, h2, h3, if_true, if_false, Except.ok.injEq, Option.some.injEq] at h
    subst h
    refine ⟨by omega, by simpa using h3, ?_⟩
    intro j hj
    interval_cases j
    simpa using h2
  by_cases h4 : a3 < m3
  · simp only [h1, h2, h3, h4, if_true, if_false, Except.ok.injEq, Option.some.injEq] at h
    subst h
    refine ⟨by omega, by simpa using h4, ?_⟩
    intro j hj
    interval_cases j
    · simpa using h2
    · simpa using h3
  · simp [h1, h2, h3, h4] at h

/-- Once the row of settings is read, `Check` continues with the version checks. -/
theorem Check_of_metadata (unicodeLower : GoString → GoString) (db : Db) (flags : Flags)
    (w : World) (rows : Rows) (md : Metadata)
    (hq : db.Query metadataSQL = .ok rows) (hr : readRow rows = (md, none)) :
    Check unicodeLower db flags w
      = checkVersion unicodeLower db flags md
          ((deriveDBname flags w).emit (.query metadataSQL)) := by
  simp only [Check, hq, hr]

/-- The exit of `Check` through a complaint of the version loop. -/
theorem checkVersion_of_gate_fail (unicodeLower : GoString → GoString) (db : Db)
    (flags : Flags) (md : Metadata) (w : World) (verNums : List Int)
    (e : Option VersionError) (k : Nat)
    (hv : GetSQLVersion md.version = .ok (verNums, e))
    (hg : versionGate verNums
        (minVersion (GetSQLVariant unicodeLower flags.DBType md.dbComment)) = .ok (some k)) :
    checkVersion unicodeLower db flags md w
      = (w.setDbVariant (GetSQLVariant unicodeLower flags.DBType md.dbComment)).badDB
          (str "MySQL version element " ++ strconv.Itoa (k + 1) ++ str " of '" ++ md.version ++
            str "' not high enough, need at least version " ++
            wantVersion (minVersion (GetSQLVariant unicodeLower flags.DBType md.dbComment))) := by
  simp only [checkVersion, hv, hg]

/-- When the version loop has no complaint, `Check` continues with the encoding. -/
theorem checkVersion_of_gate_pass (unicodeLower : GoString → GoString) (db : Db)
    (flags : Flags) (md : Metadata) (w : World) (verNums : List Int)
    (e : Option VersionError)
    (hv : GetSQLVersion md.version = .ok (verNums, e))
    (hg : versionGate verNums
        (minVersion (GetSQLVariant unicodeLower flags.DBType md.dbComment)) = .ok none) :
    checkVersion unicodeLower db flags md w
      = checkEncoding db md.charset md.collation
          (w.setDbVariant (GetSQLVariant unicodeLower flags.DBType md.dbComment)) := by
  simp only [checkVersion, hv, hg]

/-- Claim C2. On a parsed tuple (a1, a2, a3) and a minimum (m1, m2, m3) the version loop
of `Check` has no complaint exactly when a1 > m1, or a1 ≥ m1, a2 ≥ m2 and a3 ≥ m3. So it
passes whenever a1 > m1, as for (8, 0, 0) against (5, 7, 10). The minimum is (10, 3, 0)
for MariaDB and (5, 7, 10) for the two other variants. -/
theorem versionGate_pass_iff (a1 a2 a3 m1 m2 m3 : Int) :
    (versionGate [a1, a2, a3] [m1, m2, m3] = .ok none
        ↔ (a1 > m1 ∨ (a1 ≥ m1 ∧ a2 ≥ m2 ∧ a3 ≥ m3)))
    ∧ (a1 > m1 → versionGate [a1, a2, a3] [m1, m2, m3] = .ok none)
    ∧ versionGate [8, 0, 0] [5, 7, 10] = .ok none
    ∧ minVersion .DBVariantMariaDB = [10, 3, 0]
    ∧ minVersion .DBVariantPercona = [5, 7, 10]
    ∧ minVersion .DbVariantMySQL = [5, 7, 10] := by
  refine ⟨?_, ?_, by decide, by decide, by decide, by decide⟩
  · rw [versionGate_triple]
    split_ifs <;> simp <;> omega
  · intro h
    rw [versionGate_triple, if_pos h]

/-- The version 8.0.0 passes against the minimum 5.7.10 because 8 > 5, and 5.7.9 does
not pass. -/
theorem versionGate_pass_iff_witness :
    versionGate [8, 0, 0] [5, 7, 10] = .ok none
    ∧ ¬ versionGate [5, 7, 9] [5, 7, 10] = .ok none :=
  ⟨(versionGate_pass_iff 8 0 0 5 7 10).2.1 (by decide),
   fun h => absurd ((versionGate_pass_iff 5 7 9 5 7 10).1.mp h) (by decide)⟩

/-- Claim C3. Whenever the version loop complains, `Check` sets the mode to
`SiteModeBadDB`, returns `false` and sets `Issue` to "MySQL version element K of 'V' not
high enough, need at least version M": V is the raw version string, M the minimum
written m1.m2.m3, and K - 1 = `k` the first position whose component is below the
minimum. For (5, 6, 99) against (5, 7, 10), K is 2. -/
theorem Check_version_gate_fails (unicodeLower : GoString → GoString) (db : Db)
    (flags : Flags) (w : World) (rows : Rows) (md : Metadata) (verNums : List Int)
    (e : Option VersionError) (k : Nat)
    (hq : db.Query metadataSQL = .ok rows) (hr : readRow rows = (md, none))
    (hv : GetSQLVersion md.version = .ok (verNums, e))
    (hg : versionGate verNums
        (minVersion (GetSQLVariant unicodeLower flags.DBType md.dbComment)) = .ok (some k)) :
    (Check unicodeLower db flags w).1.SiteMode = .SiteModeBadDB
    ∧ (Check unicodeLower db flags w).2 = .returned false
    ∧ (Check unicodeLower db flags w).1.Issue
        = str "MySQL version element " ++ strconv.Itoa (k + 1) ++ str " of '" ++ md.version ++
            str "' not high enough, need at least version " ++
            wantVersion (minVersion (GetSQLVariant unicodeLower flags.DBType md.dbComment))
    ∧ (∀ m1 m2 m3 : Int, wantVersion [m1, m2, m3]
        = strconv.Itoa m1 ++ str "." ++ strconv.Itoa m2 ++ str "." ++ strconv.Itoa m3)
    ∧ wantVersion [5, 7, 10] = str "5.7.10" ∧ wantVersion [10, 3, 0] = str "10.3.0"
    ∧ k < 3
    ∧ verNums.getD k 0
        < (minVersion (GetSQLVariant unicodeLower flags.DBType md.dbComment)).getD k 0
    ∧ (∀ j, j < k →
        (minVersion (GetSQLVariant unicodeLower flags.DBType md.dbComment)).getD j 0
          ≤ verNums.getD j 0)
    ∧ versionGate [5, 6, 99] [5, 7, 10] = .ok (some 1) := by
  have key : k < 3
      ∧ verNums.getD k 0
          < (minVersion (GetSQLVariant unicodeLower flags.DBType md.dbComment)).getD k 0
      ∧ (∀ j, j < k →
          (minVersion (GetSQLVariant unicodeLower flags.DBType md.dbComment)).getD j 0
            ≤ verNums.getD j 0) := by
    obtain ⟨a1, a2, a3, rfl⟩ := triple_of_length verNums (GetSQLVersion_length _ _ _ hv)
    obtain ⟨m1, m2, m3, hm⟩ :=
      minVersion_triple (GetSQLVariant unicodeLower flags.DBType md.dbComment)
    rw [hm] at hg ⊢
    exact versionGate_fail_first a1 a2 a3 m1 m2 m3 k hg
  rw [Check_of_metadata unicodeLower db flags w rows md hq hr,
    checkVersion_of_gate_fail unicodeLower db flags md _ verNums e k hv hg]
  exact ⟨rfl, rfl, rfl, fun _ _ _ => rfl, by decide, by decide, key.1, key.2.1, key.2.2,
    by decide⟩

/-- A MySQL server of version 5.6.99 is refused with a complaint about element 2. -/
theorem Check_version_gate_fails_witness :
    (Check id (fixture.dbOf (fixture.mysql (str "5.6.99")) (.ok [str "12"]) [])
        fixture.flags fixture.world).1.Issue
      = str "MySQL version element 2 of '5.6.99' not high enough, need at least version 5.7.10"
    ∧ (Check id (fixture.dbOf (fixture.mysql (str "5.6.99")) (.ok [str "12"]) [])
        fixture.flags fixture.world).1.SiteMode = .SiteModeBadDB :=
  have h := Check_version_gate_fails id
    (fixture.dbOf (fixture.mysql (str "5.6.99")) (.ok [str "12"]) []) fixture.flags
    fixture.world (fixture.rowsOf (fixture.mysql (str "5.6.99")))
    (fixture.mysql (str "5.6.99")) [5, 6, 99] none 1 rfl rfl (by decide) (by decide)
  ⟨h.2.2.1.trans (by decide), h.1⟩

/-- Claim C4. The version loop is not a minimum-version check in major.minor.patch
order: version 5.8.0 is above the MySQL minimum 5.7.10 in that order, yet the loop
complains about its third component and `Check` ends in `SiteModeBadDB`. -/
theorem Check_rejects_newer_minor :
    versionGate [5, 8, 0] (minVersion .DbVariantMySQL) = .ok (some 2)
    ∧ GetSQLVersion (str "5.8.0") = .ok ([5, 8, 0], none)
    ∧ Check id (fixture.dbOf (fixture.mysql (str "5.8.0")) (.ok [str "12"]) [])
        fixture.flags fixture.world
      = ({ fixture.world with
            DBname := str "documize"
            Issue := str "MySQL version element 3 of '5.8.0' not high enough, need at least version 5.7.10"
            SiteMode := .SiteModeBadDB
            trace := [.setDBname (str "documize"), .query metadataSQL,
              .setDbVariant .DbVariantMySQL,
              .setIssue (str "MySQL version element 3 of '5.8.0' not high enough, need at least version 5.7.10"),
              .setSiteMode .SiteModeBadDB] },
          .returned false) := by
  refine ⟨by decide, by decide, ?_⟩
  decide

/-! ### Encoding gate -/

/-- The encoding tests accept exactly the character sets utf8 and utf8mb4 together
with a collation that starts with utf8. -/
theorem encodingIssue_eq_none_iff (charset collation : GoString) :
    encodingIssue charset collation = none
      ↔ (charset = str "utf8" ∨ charset = str "utf8mb4")
          ∧ strings.HasPrefix collation (str "utf8") = true := by
  unfold encodingIssue
  by_cases h1 : charset = str "utf8" <;> by_cases h2 : charset = str "utf8mb4" <;>
    by_cases h3 : strings.HasPrefix collation (str "utf8") = true <;> simp [h1, h2, h3]

/-- A run that reaches the encoding tests continues with them. -/
theorem Check_of_gate_pass (unicodeLower : GoString → GoString) (db : Db) (flags : Flags)
    (w : World) (rows : Rows) (md : Metadata) (verNums : List Int)
    (e : Option VersionError)
    (hq : db.Query metadataSQL = .ok rows) (hr : readRow rows = (md, none))
    (hv : GetSQLVersion md.version = .ok (verNums, e))
    (hg : versionGate verNums
        (minVersion (GetSQLVariant unicodeLower flags.DBType md.dbComment)) = .ok none) :
    Check unicodeLower db flags w
      = checkEncoding db md.charset md.collation
          (((deriveDBname flags w).emit (.query metadataSQL)).setDbVariant
            (GetSQLVariant unicodeLower flags.DBType md.dbComment)) := by
  rw [Check_of_metadata unicodeLower db flags w rows md hq hr,
    checkVersion_of_gate_pass unicodeLower db flags md _ verNums e hv hg]

/-- Claim C10. In a run that reaches the encoding tests, they pass exactly when the
character set is "utf8" or "utf8mb4" and the collation starts with "utf8". The
character set is tested first: a refused character set gives the issue "MySQL character
set not utf8/utf8mb4: " followed by it, whatever the collation; an accepted character
set with a refused collation gives "MySQL collation sequence not utf8...: " followed by
the collation; in both cases the mode is `SiteModeBadDB` and `Check` returns `false`.
When both pass `Check` goes on to count the tables. The character set "latin1" and the
collation "latin1_swedish_ci" are refused, "utf8mb4" with "utf8mb4_unicode_ci" is
accepted. -/
theorem Check_encoding_gate (unicodeLower : GoString → GoString) (db : Db)
    (flags : Flags) (w : World) (rows : Rows) (md : Metadata) (verNums : List Int)
    (e : Option VersionError)
    (hq : db.Query metadataSQL = .ok rows) (hr : readRow rows = (md, none))
    (hv : GetSQLVersion md.version = .ok (verNums, e))
    (hg : versionGate verNums
        (minVersion (GetSQLVariant unicodeLower flags.DBType md.dbComment)) = .ok none) :
    (encodingIssue md.charset md.collation = none
      ↔ (md.charset = str "utf8" ∨ md.charset = str "utf8mb4")
          ∧ strings.HasPrefix md.collation (str "utf8") = true)
    ∧ (¬ (md.charset = str "utf8" ∨ md.charset = str "utf8mb4") →
        (Check unicodeLower db flags w).1.Issue
            = str "MySQL character set not utf8/utf8mb4: " ++ md.charset
          ∧ (Check unicodeLower db flags w).1.SiteMode = .SiteModeBadDB
          ∧ (Check unicodeLower db flags w).2 = .returned false)
    ∧ ((md.charset = str "utf8" ∨ md.charset = str "utf8mb4") →
        strings.HasPrefix md.collation (str "utf8") = false →
        (Check unicodeLower db flags w).1.Issue
            = str "MySQL collation sequence not utf8...: " ++ md.collation
          ∧ (Check unicodeLower db flags w).1.SiteMode = .SiteModeBadDB
          ∧ (Check unicodeLower db flags w).2 = .returned false)
    ∧ (encodingIssue md.charset md.collation = none →
        Check unicodeLower db flags w
          = checkEmpty db (((deriveDBname flags w).emit (.query metadataSQL)).setDbVariant
              (GetSQLVariant unicodeLower flags.DBType md.dbComment)))
    ∧ (∀ collation : GoString, encodingIssue (str "latin1") collation
          = some (str "MySQL character set not utf8/utf8mb4: latin1"))
    ∧ (∀ charset : GoString, encodingIssue charset (str "latin1_swedish_ci") ≠ none)
    ∧ encodingIssue (str "utf8mb4") (str "utf8mb4_unicode_ci") = none := by
  rw [Check_of_gate_pass unicodeLower db flags w rows md verNums e hq hr hv hg]
  refine ⟨encodingIssue_eq_none_iff _ _, ?_, ?_, ?_, ?_, ?_, by decide⟩
  · intro h
    have hi : encodingIssue md.charset md.collation
        = some (str "MySQL character set not utf8/utf8mb4: " ++ md.charset) := by
      unfold encodingIssue
      rw [if_pos (not_or.mp h)]
    simp only [checkEncoding, hi]
    exact ⟨rfl, rfl, rfl⟩
  · intro h1 h2
    have hi : encodingIssue md.charset md.collation
        = some (str "MySQL collation sequence not utf8...: " ++ md.collation) := by
      unfold encodingIssue
      rw [if_neg (by rw [← not_or]; exact not_not.mpr h1), h2]
      rfl
    simp only [checkEncoding, hi]
    exact ⟨rfl, rfl, rfl⟩
  · intro h
    simp only [checkEncoding, h]
  · intro collation
    unfold encodingIssue
    rw [if_pos (by decide)]
    rfl
  · intro charset h
    have := ((encodingIssue_eq_none_iff _ _).mp h).2
    exact absurd this (by decide)

/-- A server set to latin1 is refused for its character set; one set to utf8mb4 passes
the encoding tests. -/
theorem Check_encoding_gate_witness :
    (Check id
        (fixture.dbOf ⟨str "8.0.31", str "MySQL Community Server", str "latin1",
          str "latin1_swedish_ci"⟩ (.ok [str "12"]) [])
        fixture.flags fixture.world).1.Issue
      = str "MySQL character set not utf8/utf8mb4: latin1"
    ∧ encodingIssue (str "utf8mb4") (str "utf8mb4_unicode_ci") = none :=
  have h := Check_encoding_gate id
    (fixture.dbOf ⟨str "8.0.31", str "MySQL Community Server", str "latin1",
      str "latin1_swedish_ci"⟩ (.ok [str "12"]) [])
    fixture.flags fixture.world
    (fixture.rowsOf ⟨str "8.0.31", str "MySQL Community Server", str "latin1",
      str "latin1_swedish_ci"⟩)
    ⟨str "8.0.31", str "MySQL Community Server", str "latin1", str "latin1_swedish_ci"⟩
    [8, 0, 31] none rfl rfl (by decide) (by decide)
  ⟨((h.2.1 (by decide)).1).trans (by decide), h.2.2.2.2.2.2⟩

/-! ### The order of the checks -/

/-- The probing loop only adds its probes to the trace, and stops at the first table
whose probe fails. -/
theorem probeTables_eq (db : Db) (ts : List GoString) :
    ∀ w : World, probeTables db ts w
      = ({ w with trace := w.trace ++ (spec.probed db ts).map (fun t => .select (probeSQL t)) },
          ts.find? (fun t => spec.selectFails db (probeSQL t))) := by
  induction ts with
  | nil => intro w; simp [probeTables, spec.probed]
  | cons table rest ih =>
    intro w
    unfold probeTables
    cases hs : db.Select (probeSQL table) with
    | error err =>
      simp [spec.probed, spec.selectFails, hs, World.emit]
    | ok res =>
      simp [spec.probed, spec.selectFails, hs, World.emit, ih]

/-- The probes write no mode. -/
theorem modesWritten_probes (ts : List GoString) :
    modesWritten (ts.map (fun t => Event.select (probeSQL t))) = [] := by
  induction ts with
  | nil => rfl
  | cons t rest ih => simp [modesWritten]

/-- The modes written by a trace that is extended. -/
theorem modesWritten_append (t1 t2 : List Event) :
    modesWritten (t1 ++ t2) = modesWritten t1 ++ modesWritten t2 := by
  simp [modesWritten]

/-- The failure exit writes the mode `SiteModeBadDB` once. -/
theorem badDB_mode (w : World) (issue : GoString) :
    modesWritten (w.badDB issue).1.trace = modesWritten w.trace ++ [.SiteModeBadDB]
    ∧ (w.badDB issue).1.SiteMode = .SiteModeBadDB
    ∧ (w.badDB issue).2 = .returned false := by
  simp [World.badDB, World.setIssue, World.setSiteMode, modesWritten]

/-- Lines 125-145: the mode is `SiteModeBadDB` when a probe fails and `SiteModeNormal`
otherwise, and this part never panics. -/
theorem checkTables_mode (db : Db) (w : World) :
    modesWritten (checkTables db w).1.trace
        = modesWritten w.trace ++
            [if tables.any (fun t => spec.selectFails db (probeSQL t)) then .SiteModeBadDB
              else .SiteModeNormal]
    ∧ (checkTables db w).1.SiteMode
        = (if tables.any (fun t => spec.selectFails db (probeSQL t)) then .SiteModeBadDB
            else .SiteModeNormal) := by
  unfold checkTables
  rw [probeTables_eq]
  cases hf : tables.find? (fun t => spec.selectFails db (probeSQL t)) with
  | none =>
    have hany : tables.any (fun t => spec.selectFails db (probeSQL t)) = false := by
      rw [List.find?_eq_none] at hf
      rw [List.any_eq_false]
      exact hf
    simp [hany, World.setSiteMode, World.setDBname, World.setDbCheckOK, modesWritten_append,
      modesWritten_probes]
    simp [modesWritten]
  | some table =>
    have hany : tables.any (fun t => spec.selectFails db (probeSQL t)) = true := by
      rw [List.any_eq_true]
      exact ⟨table, List.mem_of_find?_eq_some hf,
        List.find?_some (p := fun t => spec.selectFails db (probeSQL t)) hf⟩
    simp only [hany, if_true]
    have := badDB_mode
      { w with trace := w.trace ++ (spec.probed db tables).map (fun t => .select (probeSQL t)) }
      (str "MySQL database is not empty, but does not contain table: " ++ table)
    simp only [modesWritten_append, modesWritten_probes, List.append_nil] at this
    exact ⟨this.1, this.2.1⟩

/-- The first steps of `Check` (schema name, metadata query) write no mode. -/
theorem modesWritten_prelude (flags : Flags) (w : World) :
    modesWritten ((deriveDBname flags w).emit (.query metadataSQL)).trace
      = modesWritten w.trace := by
  simp only [deriveDBname]
  split_ifs <;> simp [World.emit, World.setDBname, modesWritten]

/-- Storing the variant writes no mode. -/
theorem modesWritten_setDbVariant (w : World) (v : DbVariant) :
    modesWritten (w.setDbVariant v).trace = modesWritten w.trace := by
  simp [World.setDbVariant, modesWritten]

/-- The schema name is not changed by the metadata query or by storing the variant. -/
theorem DBname_prelude (flags : Flags) (w : World) (v : DbVariant) :
    (((deriveDBname flags w).emit (.query metadataSQL)).setDbVariant v).DBname
      = (deriveDBname flags w).DBname := rfl

/-- The order of the rules on the runs that return. In every run of `Check` that
returns, exactly one mode is written to `SiteMode`, and it is the mode of the first rule that applies, in this order: metadata
query or scan error gives `SiteModeBadDB`; version gate fails gives `SiteModeBadDB`;
character set refused gives `SiteModeBadDB`; collation refused gives `SiteModeBadDB`;
count query fails gives `SiteModeBadDB`; count is zero gives `SiteModeSetup`; a probe of
a required table fails gives `SiteModeBadDB`; otherwise `SiteModeNormal`. The findings of
the later checks are computed independently of the earlier ones and have no influence
once an earlier rule applies. -/
theorem Check_mode_first_rule (unicodeLower : GoString → GoString) (db : Db)
    (flags : Flags) (w : World)
    (hret : ∀ p, (Check unicodeLower db flags w).2 ≠ .panicked p) :
    modesWritten (Check unicodeLower db flags w).1.trace
        = modesWritten w.trace ++ [spec.decideMode (spec.findings unicodeLower db flags w)]
    ∧ (Check unicodeLower db flags w).1.SiteMode
        = spec.decideMode (spec.findings unicodeLower db flags w) := by
  have hpre := modesWritten_prelude flags w
  cases hq : db.Query metadataSQL with
  | error err =>
    have hm : spec.decideMode (spec.findings unicodeLower db flags w) = .SiteModeBadDB := by
      simp [spec.decideMode, spec.findings, hq]
    have hb := badDB_mode ((deriveDBname flags w).emit (.query metadataSQL))
      (str "Can't get MySQL configuration: " ++ err)
    simp only [Check, hq, hm]
    rw [← hpre]
    exact ⟨hb.1, hb.2.1⟩
  | ok rows =>
    rcases hr : readRow rows with ⟨md, _ | err⟩
    swap
    · have hm : spec.decideMode (spec.findings unicodeLower db flags w) = .SiteModeBadDB := by
        simp [spec.decideMode, spec.findings, hq, hr]
      have hb := badDB_mode ((deriveDBname flags w).emit (.query metadataSQL))
        (str "no MySQL configuration return issue: " ++ err)
      simp only [Check, hq, hr, hm]
      rw [← hpre]
      exact ⟨hb.1, hb.2.1⟩
    have hset : spec.settings db = md := by simp [spec.settings, hq, hr]
    have hpre2 : modesWritten w.trace
        = modesWritten (((deriveDBname flags w).emit (.query metadataSQL)).setDbVariant
            (GetSQLVariant unicodeLower flags.DBType md.dbComment)).trace := by
      rw [modesWritten_setDbVariant, hpre]
    rw [Check_of_metadata unicodeLower db flags w rows md hq hr] at hret ⊢
    cases hv : GetSQLVersion md.version with
    | error p =>
      exact absurd (by simp [checkVersion, hv]) (hret p)
    | ok res =>
      obtain ⟨verNums, e⟩ := res
      cases hg : versionGate verNums
          (minVersion (GetSQLVariant unicodeLower flags.DBType md.dbComment)) with
      | error p =>
        exact absurd (by simp [checkVersion, hv, hg]) (hret p)
      | ok res =>
        cases res with
        | some k =>
          have hm : spec.decideMode (spec.findings unicodeLower db flags w)
              = .SiteModeBadDB := by
            simp [spec.decideMode, spec.findings, hq, hr, hset, hv, hg]
          rw [checkVersion_of_gate_fail unicodeLower db flags md _ verNums e k hv hg, hm]
          rw [hpre2]
          exact ⟨(badDB_mode _ _).1, (badDB_mode _ _).2.1⟩
        | none =>
          rw [checkVersion_of_gate_pass unicodeLower db flags md _ verNums e hv hg] at hret ⊢
          rw [hpre2]
          generalize hw2 : ((deriveDBname flags w).emit (.query metadataSQL)).setDbVariant
            (GetSQLVariant unicodeLower flags.DBType md.dbComment) = w2 at hret ⊢
          have hname : w2.DBname = (deriveDBname flags w).DBname := by
            rw [← hw2]; rfl
          by_cases hc : md.charset ≠ str "utf8" ∧ md.charset ≠ str "utf8mb4"
          · have hm : spec.decideMode (spec.findings unicodeLower db flags w)
                = .SiteModeBadDB := by
              simp [spec.decideMode, spec.findings, hq, hr, hset, hv, hg, hc]
            simp only [checkEncoding, encodingIssue, if_pos hc, hm]
            exact ⟨(badDB_mode _ _).1, (badDB_mode _ _).2.1⟩
          by_cases hco : strings.HasPrefix md.collation (str "utf8") = true
          swap
          · have hm : spec.decideMode (spec.findings unicodeLower db flags w)
                = .SiteModeBadDB := by
              simp [spec.decideMode, spec.findings, hq, hr, hset, hv, hg, hc, hco]
            simp only [checkEncoding, encodingIssue, if_neg hc, hco, hm]
            exact ⟨(badDB_mode _ _).1, (badDB_mode _ _).2.1⟩
          have hchk : checkEncoding db md.charset md.collation w2 = checkEmpty db w2 := by
            simp [checkEncoding, encodingIssue, if_neg hc, hco]
          rw [hchk] at hret ⊢
          cases hs : db.Select (countSQL (deriveDBname flags w).DBname) with
          | error err =>
            have hm : spec.decideMode (spec.findings unicodeLower db flags w)
                = .SiteModeBadDB := by
              simp [spec.decideMode, spec.findings, hq, hr, hset, hv, hg, hc, hco,
                spec.selectFails, hs]
            simp only [checkEmpty, hname, hs, hm]
            have hb := badDB_mode (w2.emit (.select (countSQL (deriveDBname flags w).DBname)))
              (str "Can't get MySQL number of tables: " ++ err)
            simp only [World.emit, modesWritten_append] at hb
            simp only [World.emit]
            exact ⟨by simpa [modesWritten] using hb.1, hb.2.1⟩
          | ok flds =>
            cases flds with
            | nil =>
              exact absurd (by simp [checkEmpty, hname, hs]) (hret (.indexOutOfRange 0 0))
            | cons fld rest =>
              by_cases hz : strings.TrimSpace fld = str "0"
              · have hm : spec.decideMode (spec.findings unicodeLower db flags w)
                    = .SiteModeSetup := by
                  simp [spec.decideMode, spec.findings, hq, hr, hset, hv, hg, hc, hco,
                    spec.selectFails, hs, hz]
                simp only [checkEmpty, hname, hs, hz, if_true, hm]
                simp [World.emit, World.setSiteMode, modesWritten]
              · have hm : spec.decideMode (spec.findings unicodeLower db flags w)
                    = (if tables.any (fun t => spec.selectFails db (probeSQL t)) then
                        .SiteModeBadDB else .SiteModeNormal) := by
                  simp [spec.decideMode, spec.findings, hq, hr, hset, hv, hg, hc, hco,
                    spec.selectFails, hs, hz]
                simp only [checkEmpty, hname, hs, hz, if_false, hm]
                have ht := checkTables_mode db
                  (w2.emit (.select (countSQL (deriveDBname flags w).DBname)))
                simp only [World.emit, modesWritten_append] at ht
                simp only [World.emit]
                exact ⟨by simpa [modesWritten] using ht.1, ht.2⟩

/-- An empty schema lacking the table `user` sends `Check` to `SiteModeSetup`: the
count rule comes before the probes. -/
theorem Check_mode_first_rule_witness :
    modesWritten (Check id
        (fixture.dbOf (fixture.mysql (str "8.0.31")) (.ok [str " 0 "]) [str "user"])
        fixture.flags fixture.world).1.trace = [.SiteModeSetup]
    ∧ (Check id
        (fixture.dbOf (fixture.mysql (str "8.0.31")) (.ok [str " 0 "]) [str "user"])
        fixture.flags fixture.world).1.SiteMode = .SiteModeSetup :=
  have h := Check_mode_first_rule id
    (fixture.dbOf (fixture.mysql (str "8.0.31")) (.ok [str " 0 "]) [str "user"])
    fixture.flags fixture.world
    (fun p hp => by
      have h2 : (Check id
          (fixture.dbOf (fixture.mysql (str "8.0.31")) (.ok [str " 0 "]) [str "user"])
          fixture.flags fixture.world).2 = .returned false := by decide
      rw [h2] at hp
      exact Outcome.noConfusion hp)
  ⟨h.1.trans (by decide), h.2.trans (by decide)⟩

/-! ### Facts about the library functions -/

/-- Splitting a piece without separator that is followed by a separator. -/
theorem Split_append_sep (sep : Nat) (xs rest : GoString) (h : sep ∉ xs) :
    strings.Split (xs ++ sep :: rest) sep = xs :: strings.Split rest sep := by
  induction xs with
  | nil => simp [strings.Split]
  | cons c cs ih =>
    have hc : c ≠ sep := fun hc => h (by simp [hc])
    have hcs : sep ∉ cs := fun hcs => h (by simp [hcs])
    simp [strings.Split, hc, ih hcs]

/-- Splitting a string without separator gives the string itself. -/
theorem Split_of_not_mem (sep : Nat) (xs : GoString) (h : sep ∉ xs) :
    strings.Split xs sep = [xs] := by
  induction xs with
  | nil => simp [strings.Split]
  | cons c cs ih =>
    have hc : c ≠ sep := fun hc => h (by simp [hc])
    have hcs : sep ∉ cs := fun hcs => h (by simp [hcs])
    simp [strings.Split, hc, ih hcs]

/-- The index of a byte that does not occur is `-1`. -/
theorem Index_of_not_mem (sep : Nat) (xs : GoString) (h : sep ∉ xs) :
    strings.Index xs sep = -1 := by
  induction xs with
  | nil => simp [strings.Index]
  | cons c cs ih =>
    have hc : c ≠ sep := fun hc => h (by simp [hc])
    have hcs : sep ∉ cs := fun hcs => h (by simp [hcs])
    simp [strings.Index, hc, ih hcs]

/-- The index of the first occurrence of a byte is the length of what precedes it. -/
theorem Index_append_sep (sep : Nat) (xs rest : GoString) (h : sep ∉ xs) :
    strings.Index (xs ++ sep :: rest) sep = xs.length := by
  induction xs with
  | nil => simp [strings.Index]
  | cons c cs ih =>
    have hc : c ≠ sep := fun hc => h (by simp [hc])
    have hcs : sep ∉ cs := fun hcs => h (by simp [hcs])
    have hi := ih hcs
    have hnn : ¬ strings.Index (cs ++ sep :: rest) sep < 0 := by rw [hi]; omega
    show strings.Index (c :: (cs ++ sep :: rest)) sep = _
    simp only [strings.Index, hc, if_false, hi, List.length_cons]
    rw [if_neg (by omega)]
    push_cast
    ring

/-- The digit loop on a concatenation. -/
theorem parseDigits_append (xs ys : GoString) :
    ∀ n : Nat, strconv.parseDigits (xs ++ ys) n
      = match strconv.parseDigits xs n with
        | .ok m => strconv.parseDigits ys m
        | .error e => .error e := by
  induction xs with
  | nil => intro n; simp [strconv.parseDigits]
  | cons c cs ih =>
    intro n
    simp only [List.cons_append, strconv.parseDigits]
    split_ifs
    · exact ih _
    · rfl
    · rfl

/-- The digits produced for a number are decimal digits. -/
theorem digitsRev_digits (fuel : Nat) :
    ∀ n c, c ∈ strconv.digitsRev fuel n → 48 ≤ c ∧ c ≤ 57 := by
  induction fuel with
  | zero => intro n c h; simp [strconv.digitsRev] at h
  | succ fuel ih =>
    intro n c h
    simp only [strconv.digitsRev] at h
    split_ifs at h with hn
    · simp only [List.mem_singleton] at h
      omega
    · rcases List.mem_cons.mp h with h | h
      · omega
      · exact ih _ _ h

/-- With enough fuel the digits are not empty. -/
theorem digitsRev_ne_nil (fuel n : Nat) : strconv.digitsRev (fuel + 1) n ≠ [] := by
  simp only [strconv.digitsRev]
  split_ifs <;> simp

/-- Reading back the digits of a number gives the number. -/
theorem parseDigits_digitsRev (fuel : Nat) :
    ∀ n, n < fuel → n < 2 ^ strconv.intSize →
      strconv.parseDigits (strconv.digitsRev fuel n).reverse 0 = .ok n := by
  induction fuel with
  | zero => intro n h; omega
  | succ fuel ih =>
    intro n hn hb
    simp only [strconv.digitsRev]
    split_ifs with h10
    · have hb2 : 0 * 10 + (n + 48 - 48) < 2 ^ strconv.intSize := by
        simp only [Nat.zero_mul, Nat.zero_add, Nat.add_sub_cancel]; exact hb
      simp only [List.reverse_cons, List.reverse_nil, List.nil_append, strconv.parseDigits]
      rw [if_pos (by omega), if_pos hb2]
      simp
    · have hlt : n / 10 < fuel := by omega
      have hb' : n / 10 < 2 ^ strconv.intSize := lt_of_le_of_lt (Nat.div_le_self n 10) hb
      have hval : n / 10 * 10 + (n % 10 + 48 - 48) = n := by omega
      simp only [List.reverse_cons, parseDigits_append, ih _ hlt hb', strconv.parseDigits]
      rw [if_pos (by omega), hval, if_pos hb]

/-- The decimal rendering of a number consists of decimal digits. -/
theorem formatNat_digits (n c : Nat) (h : c ∈ strconv.formatNat n) : 48 ≤ c ∧ c ≤ 57 :=
  digitsRev_digits (n + 1) n c (List.mem_reverse.mp h)

/-- The decimal rendering of a number is not empty. -/
theorem formatNat_ne_nil (n : Nat) : strconv.formatNat n ≠ [] := by
  unfold strconv.formatNat
  intro h
  exact digitsRev_ne_nil n n (List.reverse_eq_nil_iff.mp h)

/-- Converting the decimal rendering of a number below 2^63 gives the number back. -/
theorem Atoi_formatNat (n : Nat) (h : n < 2 ^ 63) :
    strconv.Atoi (strconv.formatNat n) = .ok (n : Int) := by
  have hp : strconv.parseDigits (strconv.formatNat n) 0 = .ok n :=
    parseDigits_digitsRev (n + 1) n (by omega)
      (lt_trans h (by decide : 2 ^ 63 < 2 ^ strconv.intSize))
  cases hf : strconv.formatNat n with
  | nil => exact absurd hf (formatNat_ne_nil n)
  | cons c cs =>
    have hc := formatNat_digits n c (by rw [hf]; simp)
    have h45 : c ≠ 45 := by omega
    have h43 : c ≠ 43 := by omega
    rw [hf] at hp
    simp only [strconv.Atoi, h45, h43, or_self, if_false, hp]
    simp only [List.cons_ne_nil, if_false]
    rw [if_neg (by simpa [strconv.intSize] using h)]

/-! ### Version parsing -/

/-- The byte strings of the two separators. -/
theorem str_dot_hyphen : str "." = [46] ∧ str "-" = [45] := by decide

/-- The body of `GetSQLVersion` in terms of the text that it splits. -/
theorem GetSQLVersion_eq (v : GoString) :
    GetSQLVersion v
      = if (strings.Split (spec.splitText v) 46).length < 3 then .ok ([0, 0, 0], some .notABC)
        else GetSQLVersion.loop (strings.Split (spec.splitText v) 46) 0 [0, 0, 0] := rfl

/-- A text without hyphen is split as it is, and so is a text of two bytes or more
without hyphen when a hyphen and anything else follow it. -/
theorem splitText_of_no_hyphen (v0 : GoString) (h : 45 ∉ v0) :
    spec.splitText v0 = v0
    ∧ ∀ s : GoString, 1 < v0.length → spec.splitText (v0 ++ 45 :: s) = v0 := by
  constructor
  · unfold spec.splitText
    rw [Index_of_not_mem 45 v0 h, if_neg (by decide)]
  · intro s hl
    unfold spec.splitText
    rw [Index_append_sep 45 v0 s h, if_pos (by exact_mod_cast hl)]
    simp

/-- Three components that `Atoi` converts, optionally followed by a hyphen and any
text, give the tuple of their values. -/
theorem GetSQLVersion_three (A B C : GoString) (a b c : Int)
    (hA : 45 ∉ A ∧ 46 ∉ A) (hB : 45 ∉ B ∧ 46 ∉ B) (hC : 45 ∉ C ∧ 46 ∉ C)
    (ha : strconv.Atoi A = .ok a) (hb : strconv.Atoi B = .ok b)
    (hc : strconv.Atoi C = .ok c) :
    GetSQLVersion (A ++ 46 :: (B ++ 46 :: C)) = .ok ([a, b, c], none)
    ∧ ∀ s : GoString,
        GetSQLVersion ((A ++ 46 :: (B ++ 46 :: C)) ++ 45 :: s) = .ok ([a, b, c], none) := by
  have hno : 45 ∉ A ++ 46 :: (B ++ 46 :: C) := by
    simp [hA.1, hB.1, hC.1]
  have hlen : 1 < (A ++ 46 :: (B ++ 46 :: C)).length := by
    simp only [List.length_append, List.length_cons]
    omega
  have hsplit : strings.Split (A ++ 46 :: (B ++ 46 :: C)) 46 = [A, B, C] := by
    rw [Split_append_sep 46 A _ hA.2, Split_append_sep 46 B _ hB.2,
      Split_of_not_mem 46 C hC.2]
  have hrun : (if (strings.Split (A ++ 46 :: (B ++ 46 :: C)) 46).length < 3 then
        (.ok ([0, 0, 0], some .notABC) : Except Panic (List Int × Option VersionError))
      else GetSQLVersion.loop (strings.Split (A ++ 46 :: (B ++ 46 :: C)) 46) 0 [0, 0, 0])
      = .ok ([a, b, c], none) := by
    rw [hsplit]
    simp [GetSQLVersion.loop, ha, hb, hc]
  constructor
  · rw [GetSQLVersion_eq, (splitText_of_no_hyphen _ hno).1]
    exact hrun
  · intro s
    rw [GetSQLVersion_eq, (splitText_of_no_hyphen _ hno).2 s hlen]
    exact hrun

/-- The function `Itoa` on a natural number. -/
theorem Itoa_natCast (n : Nat) : strconv.Itoa (n : Int) = strconv.formatNat n := by
  simp [strconv.Itoa]

/-- The decimal rendering of a number has neither a hyphen nor a dot. -/
theorem formatNat_no_sep (n : Nat) :
    45 ∉ strconv.formatNat n ∧ 46 ∉ strconv.formatNat n :=
  ⟨fun h => absurd (formatNat_digits n 45 h) (by omega),
   fun h => absurd (formatNat_digits n 46 h) (by omega)⟩

/-- Claim C6, amended. For all natural numbers a, b, c below 2^63 written in decimal and
every suffix s, `GetSQLVersion` returns the tuple [a, b, c] and no error both on
"a.b.c" and on "a.b.c-s". -/
theorem GetSQLVersion_decimal (a b c : Nat) (s : GoString)
    (ha : a < 2 ^ 63) (hb : b < 2 ^ 63) (hc : c < 2 ^ 63) :
    GetSQLVersion (strconv.Itoa a ++ str "." ++ strconv.Itoa b ++ str "." ++ strconv.Itoa c)
        = .ok ([(a : Int), (b : Int), (c : Int)], none)
    ∧ GetSQLVersion (strconv.Itoa a ++ str "." ++ strconv.Itoa b ++ str "." ++ strconv.Itoa c
          ++ str "-" ++ s)
        = .ok ([(a : Int), (b : Int), (c : Int)], none) := by
  have h := GetSQLVersion_three (strconv.formatNat a) (strconv.formatNat b)
    (strconv.formatNat c) a b c (formatNat_no_sep a) (formatNat_no_sep b) (formatNat_no_sep c)
    (Atoi_formatNat a ha) (Atoi_formatNat b hb) (Atoi_formatNat c hc)
  simp only [Itoa_natCast, str_dot_hyphen.1, str_dot_hyphen.2, List.append_assoc,
    List.singleton_append]
  refine ⟨h.1, ?_⟩
  have h2 := h.2 s
  simpa only [List.append_assoc, List.cons_append] using h2

/-- The version strings "5.7.10" and "5.7.10-log" both give [5, 7, 10]. -/
theorem GetSQLVersion_decimal_witness :
    GetSQLVersion (str "5.7.10") = .ok ([5, 7, 10], none)
    ∧ GetSQLVersion (str "5.7.10-log") = .ok ([5, 7, 10], none) :=
  have h := GetSQLVersion_decimal 5 7 10 (str "log") (by decide) (by decide) (by decide)
  ⟨(congrArg GetSQLVersion (by decide : str "5.7.10" = _)).trans h.1,
   (congrArg GetSQLVersion (by decide : str "5.7.10-log" = _)).trans h.2⟩

set_option maxRecDepth 100000 in
/-- Claim C6 as stated fails: the number 2^63, a non-negative integer written in
decimal, is not converted by `Atoi`, and `GetSQLVersion` returns an error. -/
theorem GetSQLVersion_decimal_out_of_range :
    strconv.Itoa 9223372036854775808 = str "9223372036854775808"
    ∧ GetSQLVersion (strconv.Itoa 9223372036854775808 ++ str "." ++ strconv.Itoa 0 ++ str "."
        ++ strconv.Itoa 0)
      = .ok ([0, 0, 0], some (.atoi (str "9223372036854775808") .ErrRange)) := by
  decide

/-- The function `GetSQLVersion` as a decision list on the pieces of the text that it
splits. -/
theorem GetSQLVersion_unfold (v : GoString) :
    GetSQLVersion v =
      match strings.Split (spec.splitText v) 46 with
      | v0 :: v1 :: v2 :: rest =>
        match strconv.Atoi v0 with
        | .error e => .ok ([0, 0, 0], some (.atoi v0 e))
        | .ok a =>
          match strconv.Atoi v1 with
          | .error e => .ok ([a, 0, 0], some (.atoi v1 e))
          | .ok b =>
            match strconv.Atoi v2 with
            | .error e => .ok ([a, b, 0], some (.atoi v2 e))
            | .ok c =>
              match rest with
              | [] => .ok ([a, b, c], none)
              | v3 :: _ =>
                match strconv.Atoi v3 with
                | .error e => .ok ([a, b, c], some (.atoi v3 e))
                | .ok _ => .error (.indexOutOfRange 3 3)
      | _ => .ok ([0, 0, 0], some .notABC) := by
  rw [GetSQLVersion_eq]
  rcases strings.Split (spec.splitText v) 46 with _ | ⟨v0, _ | ⟨v1, _ | ⟨v2, rest⟩⟩⟩
  · simp
  · simp
  · simp
  · simp only [List.length_cons]
    rw [if_neg (by omega)]
    simp only [GetSQLVersion.loop]
    cases strconv.Atoi v0 with
    | error e => rfl
    | ok a =>
      cases strconv.Atoi v1 with
      | error e => simp
      | ok b =>
        cases strconv.Atoi v2 with
        | error e => simp
        | ok c =>
          cases rest with
          | nil => simp [GetSQLVersion.loop]
          | cons v3 rest2 =>
            cases h3 : strconv.Atoi v3 with
            | error e => simp [GetSQLVersion.loop, h3]
            | ok d => simp [GetSQLVersion.loop, h3]

/-- Claim C7, amended. `GetSQLVersion` returns a non-nil error whenever the text that it
splits has fewer than three pieces between dots, and whenever one of the first three
pieces is not converted by `Atoi`. That text is the whole input when it has no hyphen,
and the part before the first hyphen when that part has two bytes or more. -/
theorem GetSQLVersion_error (v : GoString) :
    ((strings.Split (spec.splitText v) 46).length < 3 →
        GetSQLVersion v = .ok ([0, 0, 0], some .notABC))
    ∧ (∀ (i : Nat) (val : GoString) (e : strconv.NumError), i < 3 →
        (strings.Split (spec.splitText v) 46).get? i = some val →
        strconv.Atoi val = .error e →
        ∃ ints err, GetSQLVersion v = .ok (ints, some err))
    ∧ (45 ∉ v → spec.splitText v = v)
    ∧ (∀ p s : GoString, 45 ∉ p → 1 < p.length → v = p ++ str "-" ++ s →
        spec.splitText v = p) := by
  refine ⟨?_, ?_, fun h => (splitText_of_no_hyphen v h).1, ?_⟩
  · intro h
    rw [GetSQLVersion_eq, if_pos h]
  · intro i val e hi hget herr
    rw [GetSQLVersion_unfold]
    rcases hs : strings.Split (spec.splitText v) 46 with _ | ⟨v0, _ | ⟨v1, _ | ⟨v2, rest⟩⟩⟩
    · exact ⟨_, _, rfl⟩
    · exact ⟨_, _, rfl⟩
    · exact ⟨_, _, rfl⟩
    · rw [hs] at hget
      simp only
      cases h0 : strconv.Atoi v0 with
      | error e0 => exact ⟨_, _, rfl⟩
      | ok a =>
        cases h1 : strconv.Atoi v1 with
        | error e1 => exact ⟨_, _, rfl⟩
        | ok b =>
          cases h2 : strconv.Atoi v2 with
          | error e2 => exact ⟨_, _, rfl⟩
          | ok c =>
            exfalso
            interval_cases i
            · simp only [List.get?_cons_zero, Option.some.injEq] at hget
              rw [← hget, h0] at herr
              exact Except.noConfusion herr
            · simp only [List.get?_cons_succ, List.get?_cons_zero, Option.some.injEq] at hget
              rw [← hget, h1] at herr
              exact Except.noConfusion herr
            · simp only [List.get?_cons_succ, List.get?_cons_zero, Option.some.injEq] at hget
              rw [← hget, h2] at herr
              exact Except.noConfusion herr
  · intro p s hp hl hv
    rw [hv, str_dot_hyphen.2]
    simpa using (splitText_of_no_hyphen p hp).2 s hl

/-- The strings "5.7" and "5.x.10-log" give an error. -/
theorem GetSQLVersion_error_witness :
    GetSQLVersion (str "5.7") = .ok ([0, 0, 0], some .notABC)
    ∧ (∃ ints err, GetSQLVersion (str "5.x.10-log") = .ok (ints, some err))
    ∧ spec.splitText (str "5.x.10-log") = str "5.x.10" :=
  ⟨(GetSQLVersion_error (str "5.7")).1 (by decide),
   (GetSQLVersion_error (str "5.x.10-log")).2.1 1 (str "x") .ErrSyntax (by decide)
     (by decide) (by decide),
   (GetSQLVersion_error (str "5.x.10-log")).2.2.2 (str "5.x.10") (str "log") (by decide)
     (by decide) (by decide)⟩

/-- Claim C7 as stated fails: in "-1.2.3" the part before the first hyphen is empty,
which is fewer than three components, yet `GetSQLVersion` returns no error. -/
theorem GetSQLVersion_leading_hyphen :
    strings.Index (str "-1.2.3") 45 = 0
    ∧ strings.Split ((str "-1.2.3").take 0) 46 = [[]]
    ∧ GetSQLVersion (str "-1.2.3") = .ok ([-1, 2, 3], none) := by
  decide

/-- Claim C8. On "1.2.3.4", four numeric components, `GetSQLVersion` does not return
[1, 2, 3]: the store into the fourth slot of a slice of length three panics, and so
does `Check` on a server that reports this version. The same happens for every input
whose first four pieces are converted by `Atoi`. -/
theorem GetSQLVersion_four_components_panic :
    GetSQLVersion (str "1.2.3.4") = .error (.indexOutOfRange 3 3)
    ∧ (Check id (fixture.dbOf (fixture.mysql (str "1.2.3.4")) (.ok [str "12"]) [])
        fixture.flags fixture.world).2 = .panicked (.indexOutOfRange 3 3)
    ∧ (∀ (v v0 v1 v2 v3 : GoString) (rest : List GoString) (a b c d : Int),
        strings.Split (spec.splitText v) 46 = v0 :: v1 :: v2 :: v3 :: rest →
        strconv.Atoi v0 = .ok a → strconv.Atoi v1 = .ok b → strconv.Atoi v2 = .ok c →
        strconv.Atoi v3 = .ok d →
        GetSQLVersion v = .error (.indexOutOfRange 3 3)) := by
  refine ⟨by decide, by decide, ?_⟩
  intro v v0 v1 v2 v3 rest a b c d hs h0 h1 h2 h3
  rw [GetSQLVersion_unfold, hs]
  simp only [h0, h1, h2, h3]

/-- The tuple [0, 0, 0] fails the version loop at its first element for every variant. -/
theorem versionGate_zero (variant : DbVariant) :
    versionGate [0, 0, 0] (minVersion variant) = .ok (some 0) := by
  cases variant <;> decide

/-- Claim C9, amended. Whenever `GetSQLVersion` returns an error, the tuple returned
with it holds the values of the pieces converted before the failure, followed by zeros:
it is [0, 0, 0] when the error is the one for fewer than three pieces and when the first
piece is the one that is not converted. `Check` runs the version loop on that tuple;
when the tuple is [0, 0, 0] the loop complains about element 1 and `Check` ends in
`SiteModeBadDB`. -/
theorem GetSQLVersion_error_tuple (v : GoString) (ints : List Int) (err : VersionError)
    (h : GetSQLVersion v = .ok (ints, some err)) :
    (∃ nums : List Int, nums.length ≤ 3
      ∧ ints = nums ++ List.replicate (3 - nums.length) 0
      ∧ (∀ j, j < nums.length →
          ∃ val, (strings.Split (spec.splitText v) 46).get? j = some val
            ∧ strconv.Atoi val = .ok (nums.getD j 0))
      ∧ (err = .notABC → nums = [])
      ∧ (∀ val e, err = .atoi val e →
          (strings.Split (spec.splitText v) 46).get? nums.length = some val
            ∧ strconv.Atoi val = .error e))
    ∧ (ints = [0, 0, 0] →
        ∀ (unicodeLower : GoString → GoString) (db : Db) (flags : Flags) (w : World)
          (rows : Rows) (md : Metadata),
          db.Query metadataSQL = .ok rows → readRow rows = (md, none) → md.version = v →
          (Check unicodeLower db flags w).1.SiteMode = .SiteModeBadDB
            ∧ (Check unicodeLower db flags w).2 = .returned false
            ∧ (Check unicodeLower db flags w).1.Issue
                = str "MySQL version element " ++ strconv.Itoa 1 ++ str " of '" ++ v ++
                    str "' not high enough, need at least version " ++
                    wantVersion
                      (minVersion (GetSQLVariant unicodeLower flags.DBType md.dbComment))) := by
  constructor
  · rw [GetSQLVersion_unfold] at h
    rcases hs : strings.Split (spec.splitText v) 46 with _ | ⟨v0, _ | ⟨v1, _ | ⟨v2, rest⟩⟩⟩
    · rw [hs] at h
      simp only [Except.ok.injEq, Prod.mk.injEq, Option.some.injEq] at h
      refine ⟨[], by simp, by simp [← h.1], by simp, fun _ => rfl, ?_⟩
      intro val e he
      rw [← h.2] at he
      exact VersionError.noConfusion he
    · rw [hs] at h
      simp only [Except.ok.injEq, Prod.mk.injEq, Option.some.injEq] at h
      refine ⟨[], by simp, by simp [← h.1], by simp, fun _ => rfl, ?_⟩
      intro val e he
      rw [← h.2] at he
      exact VersionError.noConfusion he
    · rw [hs] at h
      simp only [Except.ok.injEq, Prod.mk.injEq, Option.some.injEq] at h
      refine ⟨[], by simp, by simp [← h.1], by simp, fun _ => rfl, ?_⟩
      intro val e he
      rw [← h.2] at he
      exact VersionError.noConfusion he
    · rw [hs] at h
      simp only at h
      cases h0 : strconv.Atoi v0 with
      | error e0 =>
        rw [h0] at h
        simp only [Except.ok.injEq, Prod.mk.injEq, Option.some.injEq] at h
        refine ⟨[], by simp, by simp [← h.1], by simp, fun _ => rfl, ?_⟩
        intro val e he
        rw [← h.2] at he
        simp only [VersionError.atoi.injEq] at he
        simp [← he.1, ← he.2, h0]
      | ok a =>
        rw [h0] at h
        simp only at h
        cases h1 : strconv.Atoi v1 with
        | error e1 =>
          rw [h1] at h
          simp only [Except.ok.injEq, Prod.mk.injEq, Option.some.injEq] at h
          refine ⟨[a], by simp, by simp [← h.1], ?_, ?_, ?_⟩
          · intro j hj
            simp only [List.length_singleton] at hj
            interval_cases j
            exact ⟨v0, by simp, by simpa using h0⟩
          · intro he
            rw [← h.2] at he
            exact VersionError.noConfusion he
          · intro val e he
            rw [← h.2] at he
            simp only [VersionError.atoi.injEq] at he
            simp [← he.1, ← he.2, h1]
        | ok b =>
          rw [h1] at h
          simp only at h
          cases h2 : strconv.Atoi v2 with
          | error e2 =>
            rw [h2] at h
            simp only [Except.ok.injEq, Prod.mk.injEq, Option.some.injEq] at h
            refine ⟨[a, b], by simp, by simp [← h.1], ?_, ?_, ?_⟩
            · intro j hj
              simp only [List.length_cons, List.length_nil] at hj
              interval_cases j
              · exact ⟨v0, by simp, by simpa using h0⟩
              · exact ⟨v1, by simp, by simpa using h1⟩
            · intro he
              rw [← h.2] at he
              exact VersionError.noConfusion he
            · intro val e he
              rw [← h.2] at he
              simp only [VersionError.atoi.injEq] at he
              simp [← he.1, ← he.2, h2]
          | ok c =>
            rw [h2] at h
            simp only at h
            cases rest with
            | nil => simp at h
            | cons v3 rest2 =>
              simp only at h
              cases h3 : strconv.Atoi v3 with
              | ok d => rw [h3] at h; exact Except.noConfusion h
              | error e3 =>
                rw [h3] at h
                simp only [Except.ok.injEq, Prod.mk.injEq, Option.some.injEq] at h
                refine ⟨[a, b, c], by simp, by simp [← h.1], ?_, ?_, ?_⟩
                · intro j hj
                  simp only [List.length_cons, List.length_nil] at hj
                  interval_cases j
                  · exact ⟨v0, by simp, by simpa using h0⟩
                  · exact ⟨v1, by simp, by simpa using h1⟩
                  · exact ⟨v2, by simp, by simpa using h2⟩
                · intro he
                  rw [← h.2] at he
                  exact VersionError.noConfusion he
                · intro val e he
                  rw [← h.2] at he
                  simp only [VersionError.atoi.injEq] at he
                  simp [← he.1, ← he.2, h3]
  · intro hz unicodeLower db flags w rows md hq hr hmd
    subst hz
    subst hmd
    rw [Check_of_metadata unicodeLower db flags w rows md hq hr,
      checkVersion_of_gate_fail unicodeLower db flags md _ [0, 0, 0] (some err) 0 h
        (versionGate_zero _)]
    exact ⟨rfl, rfl, rfl⟩

/-- The version string "x.7.10" gives the tuple [0, 0, 0] with an error, and a server
that reports it is refused. -/
theorem GetSQLVersion_error_tuple_witness :
    GetSQLVersion (str "x.7.10") = .ok ([0, 0, 0], some (.atoi (str "x") .ErrSyntax))
    ∧ (Check id (fixture.dbOf (fixture.mysql (str "x.7.10")) (.ok [str "12"]) [])
        fixture.flags fixture.world).1.SiteMode = .SiteModeBadDB :=
  ⟨by decide,
   ((GetSQLVersion_error_tuple (str "x.7.10") [0, 0, 0] (.atoi (str "x") .ErrSyntax)
      (by decide)).2 rfl id
      (fixture.dbOf (fixture.mysql (str "x.7.10")) (.ok [str "12"]) [])
      fixture.flags fixture.world (fixture.rowsOf (fixture.mysql (str "x.7.10")))
      (fixture.mysql (str "x.7.10")) rfl rfl rfl).1⟩

/-- Claim C9 as stated fails: on "8.0.x" the error comes with the tuple [8, 0, 0], not
[0, 0, 0]; that tuple passes the version loop, and `Check` ends in `SiteModeNormal`
although the version string could not be parsed. -/
theorem GetSQLVersion_partial_tuple :
    GetSQLVersion (str "8.0.x") = .ok ([8, 0, 0], some (.atoi (str "x") .ErrSyntax))
    ∧ versionGate [8, 0, 0] (minVersion .DbVariantMySQL) = .ok none
    ∧ (Check id (fixture.dbOf (fixture.mysql (str "8.0.x")) (.ok [str "12"]) [])
        fixture.flags fixture.world).1.SiteMode = .SiteModeNormal
    ∧ (Check id (fixture.dbOf (fixture.mysql (str "8.0.x")) (.ok [str "12"]) [])
        fixture.flags fixture.world).2 = .returned true := by
  decide

/-! ### Empty schema and required tables -/

/-- A run whose version and encoding checks pass continues with the table count. -/
theorem Check_of_encoding_pass (unicodeLower : GoString → GoString) (db : Db) (flags : Flags)
    (w : World) (rows : Rows) (md : Metadata) (verNums : List Int)
    (e : Option VersionError)
    (hq : db.Query metadataSQL = .ok rows) (hr : readRow rows = (md, none))
    (hv : GetSQLVersion md.version = .ok (verNums, e))
    (hg : versionGate verNums
        (minVersion (GetSQLVariant unicodeLower flags.DBType md.dbComment)) = .ok none)
    (henc : encodingIssue md.charset md.collation = none) :
    Check unicodeLower db flags w
      = checkEmpty db (((deriveDBname flags w).emit (.query metadataSQL)).setDbVariant
          (GetSQLVariant unicodeLower flags.DBType md.dbComment)) := by
  rw [Check_of_gate_pass unicodeLower db flags w rows md verNums e hq hr hv hg]
  simp only [checkEncoding, henc]

/-- The first steps of `Check` write no issue. -/
theorem issuesWritten_prelude (flags : Flags) (w : World) (v : DbVariant) :
    issuesWritten (((deriveDBname flags w).emit (.query metadataSQL)).setDbVariant v).trace
      = issuesWritten w.trace := by
  simp only [deriveDBname]
  split_ifs <;> simp [World.emit, World.setDBname, World.setDbVariant, issuesWritten]

/-- The first steps of `Check` send no `Select`. -/
theorem selectsSent_prelude (flags : Flags) (w : World) (v : DbVariant) :
    selectsSent (((deriveDBname flags w).emit (.query metadataSQL)).setDbVariant v).trace
      = selectsSent w.trace := by
  simp only [deriveDBname]
  split_ifs <;> simp [World.emit, World.setDBname, World.setDbVariant, selectsSent]

/-- The first steps of `Check` leave `Issue` and `dbCheckOK` as they are. -/
theorem Issue_prelude (flags : Flags) (w : World) (v : DbVariant) :
    (((deriveDBname flags w).emit (.query metadataSQL)).setDbVariant v).Issue = w.Issue
    ∧ (((deriveDBname flags w).emit (.query metadataSQL)).setDbVariant v).dbCheckOK
        = w.dbCheckOK := by
  simp only [deriveDBname]
  split_ifs <;> simp [World.emit, World.setDBname, World.setDbVariant]

/-- The SQL text of a probe is never the SQL text of the count. -/
theorem probeSQL_ne_countSQL (table dbname : GoString) : probeSQL table ≠ countSQL dbname := by
  intro h
  have h7 := congrArg (fun l => l.get? 7) h
  have hp : str "SELECT 1 FROM " = [83, 69, 76, 69, 67, 84, 32, 49, 32, 70, 82, 79, 77, 32] := by
    decide
  have hc : (str "SELECT COUNT(*) FROM information_schema.tables WHERE table_schema = '").take 8
      = [83, 69, 76, 69, 67, 84, 32, 67] := by decide
  have hc2 : ((str "SELECT COUNT(*) FROM information_schema.tables WHERE table_schema = '"
      ++ dbname ++ str "' and TABLE_TYPE='BASE TABLE'").take 8).get? 7 = some 67 := by
    rw [List.append_assoc, List.take_append_of_le_length (by decide), hc]
    rfl
  rw [List.get?_eq_getElem?, List.getElem?_take_of_lt (by omega), ← List.get?_eq_getElem?] at hc2
  simp only [probeSQL, countSQL, hp, hc2] at h7
  simp at h7

/-- Claim C11. When the metadata, version and encoding checks pass and the count query
succeeds with a first value that trims to "0", `Check` sets the mode to `SiteModeSetup`
and returns `false`; it writes no issue and leaves `Issue` as it was, the only `Select`
it sends is the count query, which is no probe of a required table, and the only mode
it writes is `SiteModeSetup`, whatever the database would answer to the probes. -/
theorem Check_empty_schema (unicodeLower : GoString → GoString) (db : Db) (flags : Flags)
    (w : World) (rows : Rows) (md : Metadata) (verNums : List Int)
    (e : Option VersionError) (fld : GoString) (rest : List GoString)
    (hq : db.Query metadataSQL = .ok rows) (hr : readRow rows = (md, none))
    (hv : GetSQLVersion md.version = .ok (verNums, e))
    (hg : versionGate verNums
        (minVersion (GetSQLVariant unicodeLower flags.DBType md.dbComment)) = .ok none)
    (henc : encodingIssue md.charset md.collation = none)
    (hs : db.Select (countSQL (deriveDBname flags w).DBname) = .ok (fld :: rest))
    (hz : strings.TrimSpace fld = str "0") :
    (Check unicodeLower db flags w).1.SiteMode = .SiteModeSetup
    ∧ (Check unicodeLower db flags w).2 = .returned false
    ∧ (Check unicodeLower db flags w).1.Issue = w.Issue
    ∧ issuesWritten (Check unicodeLower db flags w).1.trace = issuesWritten w.trace
    ∧ selectsSent (Check unicodeLower db flags w).1.trace
        = selectsSent w.trace ++ [countSQL (deriveDBname flags w).DBname]
    ∧ (∀ table : GoString, probeSQL table ≠ countSQL (deriveDBname flags w).DBname)
    ∧ modesWritten (Check unicodeLower db flags w).1.trace
        = modesWritten w.trace ++ [.SiteModeSetup] := by
  have hname := DBname_prelude flags w (GetSQLVariant unicodeLower flags.DBType md.dbComment)
  have hi := issuesWritten_prelude flags w
    (GetSQLVariant unicodeLower flags.DBType md.dbComment)
  have hsel := selectsSent_prelude flags w
    (GetSQLVariant unicodeLower flags.DBType md.dbComment)
  have hm : modesWritten (((deriveDBname flags w).emit (.query metadataSQL)).setDbVariant
      (GetSQLVariant unicodeLower flags.DBType md.dbComment)).trace = modesWritten w.trace := by
    rw [modesWritten_setDbVariant, modesWritten_prelude]
  have hI := (Issue_prelude flags w
    (GetSQLVariant unicodeLower flags.DBType md.dbComment)).1
  rw [Check_of_encoding_pass unicodeLower db flags w rows md verNums e hq hr hv hg henc]
  generalize ((deriveDBname flags w).emit (.query metadataSQL)).setDbVariant
    (GetSQLVariant unicodeLower flags.DBType md.dbComment) = w2 at hname hi hsel hm hI
  have hce : checkEmpty db w2
      = ((w2.emit (.select (countSQL (deriveDBname flags w).DBname))).setSiteMode
          .SiteModeSetup, .returned false) := by
    simp only [checkEmpty, hname, hs, hz, if_true]
  rw [hce]
  refine ⟨rfl, rfl, hI, ?_, ?_, fun t => probeSQL_ne_countSQL t _, ?_⟩
  · rw [← hi]
    simp [World.setSiteMode, World.emit, issuesWritten]
  · rw [← hsel]
    simp [World.setSiteMode, World.emit, selectsSent]
  · rw [← hm]
    simp [World.setSiteMode, World.emit, modesWritten]

/-- An empty schema from which every required table is missing gives set-up mode. -/
theorem Check_empty_schema_witness :
    (Check id (fixture.dbOf (fixture.mysql (str "8.0.31")) (.ok [str "0"])
        database.tables) fixture.flags fixture.world).1.SiteMode = .SiteModeSetup
    ∧ selectsSent (Check id (fixture.dbOf (fixture.mysql (str "8.0.31")) (.ok [str "0"])
        database.tables) fixture.flags fixture.world).1.trace
      = [countSQL (str "documize")] :=
  have h := Check_empty_schema id
    (fixture.dbOf (fixture.mysql (str "8.0.31")) (.ok [str "0"]) database.tables)
    fixture.flags fixture.world (fixture.rowsOf (fixture.mysql (str "8.0.31")))
    (fixture.mysql (str "8.0.31")) [8, 0, 31] none (str "0") [] rfl rfl (by decide)
    (by decide) (by decide) (by decide) (by decide)
  ⟨h.1, h.2.2.2.2.1.trans (by decide)⟩

/-- The tables probed are those before the first failing probe, and that table. -/
theorem probed_eq_takeWhile (db : Db) (ts : List GoString) :
    spec.probed db ts
      = ts.takeWhile (fun t => !spec.selectFails db (probeSQL t))
          ++ (ts.find? (fun t => spec.selectFails db (probeSQL t))).toList := by
  induction ts with
  | nil => rfl
  | cons t rest ih =>
    by_cases h : spec.selectFails db (probeSQL t) = true
    · simp [spec.probed, h, List.takeWhile]
    · simp [spec.probed, h, List.takeWhile, ih]

/-- The `Select` texts of a list of probes. -/
theorem selectsSent_probes (ts : List GoString) :
    selectsSent (ts.map (fun t => Event.select (probeSQL t))) = ts.map probeSQL := by
  induction ts with
  | nil => rfl
  | cons t rest ih =>
    simp only [selectsSent] at ih
    simp [selectsSent, ih]

/-- The `Select` texts of a trace that is extended. -/
theorem selectsSent_append (t1 t2 : List Event) :
    selectsSent (t1 ++ t2) = selectsSent t1 ++ selectsSent t2 := by
  simp [selectsSent]

/-- The issues written by a trace that is extended. -/
theorem issuesWritten_append (t1 t2 : List Event) :
    issuesWritten (t1 ++ t2) = issuesWritten t1 ++ issuesWritten t2 := by
  simp [issuesWritten]

/-- The probes write no issue. -/
theorem issuesWritten_probes (ts : List GoString) :
    issuesWritten (ts.map (fun t => Event.select (probeSQL t))) = [] := by
  induction ts with
  | nil => rfl
  | cons t rest ih => simp [issuesWritten]

/-- A run that reaches the count of tables and finds a non-empty schema continues with
the probes of the required tables. -/
theorem checkEmpty_of_nonempty (db : Db) (w : World) (fld : GoString) (rest : List GoString)
    (hs : db.Select (countSQL w.DBname) = .ok (fld :: rest))
    (hz : strings.TrimSpace fld ≠ str "0") :
    checkEmpty db w = checkTables db (w.emit (.select (countSQL w.DBname))) := by
  simp only [checkEmpty, hs, hz, if_false]

/-- The result of lines 125-145 in terms of the first table whose probe fails. -/
theorem checkTables_eq (db : Db) (w : World) :
    checkTables db w
      = match tables.find? (fun t => spec.selectFails db (probeSQL t)) with
        | some table =>
          World.badDB
            { w with trace := w.trace
                ++ (spec.probed db tables).map (fun t => .select (probeSQL t)) }
            (str "MySQL database is not empty, but does not contain table: " ++ table)
        | none =>
          ((((World.setSiteMode
            { w with trace := w.trace
                ++ (spec.probed db tables).map (fun t => .select (probeSQL t)) }
            .SiteModeNormal).setDBname []).setDbCheckOK), .returned true) := by
  unfold checkTables
  rw [probeTables_eq]
  cases tables.find? (fun t => spec.selectFails db (probeSQL t)) <;> rfl

/-- Claim C12. When all earlier checks pass and the schema is not empty, `Check` probes
the required tables in the declared order account, attachment, document, label,
organization, page, revision, search, user. If `table` is the first of them whose probe
fails, `Check` sets the mode to `SiteModeBadDB`, returns `false` and sets `Issue` to "MySQL
database is not empty, but does not contain table: " followed by `table`; the probes sent
are those of the tables before `table`, all of which succeed, and of `table` itself, and
no later table is probed. For tables [A, B, C] of which A is present and B absent, the
loop probes A and B and reports B. -/
theorem Check_missing_table (unicodeLower : GoString → GoString) (db : Db) (flags : Flags)
    (w : World) (rows : Rows) (md : Metadata) (verNums : List Int)
    (e : Option VersionError) (fld : GoString) (rest : List GoString) (table : GoString)
    (hq : db.Query metadataSQL = .ok rows) (hr : readRow rows = (md, none))
    (hv : GetSQLVersion md.version = .ok (verNums, e))
    (hg : versionGate verNums
        (minVersion (GetSQLVariant unicodeLower flags.DBType md.dbComment)) = .ok none)
    (henc : encodingIssue md.charset md.collation = none)
    (hs : db.Select (countSQL (deriveDBname flags w).DBname) = .ok (fld :: rest))
    (hz : strings.TrimSpace fld ≠ str "0")
    (hf : tables.find? (fun t => spec.selectFails db (probeSQL t)) = some table) :
    (Check unicodeLower db flags w).1.SiteMode = .SiteModeBadDB
    ∧ (Check unicodeLower db flags w).2 = .returned false
    ∧ (Check unicodeLower db flags w).1.Issue
        = str "MySQL database is not empty, but does not contain table: " ++ table
    ∧ selectsSent (Check unicodeLower db flags w).1.trace
        = selectsSent w.trace ++ countSQL (deriveDBname flags w).DBname
            :: ((tables.takeWhile (fun t => !spec.selectFails db (probeSQL t))).map probeSQL
                ++ [probeSQL table])
    ∧ (∃ later : List GoString,
        tables = tables.takeWhile (fun t => !spec.selectFails db (probeSQL t))
          ++ table :: later)
    ∧ (∀ t ∈ tables.takeWhile (fun t => !spec.selectFails db (probeSQL t)),
        spec.selectFails db (probeSQL t) = false)
    ∧ spec.selectFails db (probeSQL table) = true
    ∧ tables = [str "account", str "attachment", str "document", str "label",
        str "organization", str "page", str "revision", str "search", str "user"]
    ∧ (∀ (A B C : GoString) (w0 : World), spec.selectFails db (probeSQL A) = false →
        spec.selectFails db (probeSQL B) = true →
        probeTables db [A, B, C] w0
          = ({ w0 with trace := w0.trace ++ [.select (probeSQL A), .select (probeSQL B)] },
              some B)) := by
  have hname := DBname_prelude flags w (GetSQLVariant unicodeLower flags.DBType md.dbComment)
  have hsel := selectsSent_prelude flags w
    (GetSQLVariant unicodeLower flags.DBType md.dbComment)
  rw [Check_of_encoding_pass unicodeLower db flags w rows md verNums e hq hr hv hg henc]
  generalize ((deriveDBname flags w).emit (.query metadataSQL)).setDbVariant
    (GetSQLVariant unicodeLower flags.DBType md.dbComment) = w2 at hname hsel
  rw [← hname] at hs ⊢
  rw [checkEmpty_of_nonempty db w2 fld rest hs hz, checkTables_eq, hf]
  have hfails : spec.selectFails db (probeSQL table) = true :=
    List.find?_some (p := fun t => spec.selectFails db (probeSQL t)) hf
  refine ⟨rfl, rfl, rfl, ?_, ?_, ?_, hfails, rfl, ?_⟩
  · rw [← hsel, probed_eq_takeWhile, hf]
    simp only [World.badDB, World.setIssue, World.setSiteMode, World.emit, List.append_assoc,
      selectsSent_append, List.map_append, selectsSent_probes, Option.toList, List.map_cons,
      List.map_nil]
    simp [selectsSent]
  · obtain ⟨as, bs, hsplit, hbefore⟩ := (List.find?_eq_some.mp hf).2
    refine ⟨bs, ?_⟩
    have htw : tables.takeWhile (fun t => !spec.selectFails db (probeSQL t)) = as := by
      rw [hsplit, List.takeWhile_append_of_pos (by
        intro a ha
        simpa using hbefore a ha)]
      simp [List.takeWhile, hfails]
    rw [htw]
    exact hsplit
  · intro t ht
    have := List.mem_takeWhile_imp ht
    simpa using this
  · intro A B C w0 hA hB
    rw [probeTables_eq]
    simp [spec.probed, hA, hB]

/-- A schema with tables but without the table `user` is refused, naming `user`, after
all nine tables have been probed in order. -/
theorem Check_missing_table_witness :
    (Check id (fixture.dbOf (fixture.mysql (str "8.0.31")) (.ok [str "12"])
        [str "user"]) fixture.flags fixture.world).1.Issue
      = str "MySQL database is not empty, but does not contain table: user"
    ∧ selectsSent (Check id (fixture.dbOf (fixture.mysql (str "8.0.31")) (.ok [str "12"])
        [str "user"]) fixture.flags fixture.world).1.trace
      = countSQL (str "documize") :: database.tables.map probeSQL :=
  have h := Check_missing_table id
    (fixture.dbOf (fixture.mysql (str "8.0.31")) (.ok [str "12"]) [str "user"])
    fixture.flags fixture.world (fixture.rowsOf (fixture.mysql (str "8.0.31")))
    (fixture.mysql (str "8.0.31")) [8, 0, 31] none (str "12") [] (str "user") rfl rfl
    (by decide) (by decide) (by decide) (by decide) (by decide) (by decide)
  ⟨h.2.2.1.trans (by decide), h.2.2.2.1.trans (by decide)⟩

/-- Claim C13, amended. For every initial state, when all checks pass `Check` returns
`true` with the mode `SiteModeNormal`, the schema name cleared to the empty string and
`dbCheckOK` set; it writes no issue and `Issue` keeps the value it had before the run,
so the issue report is empty after the run when it was empty before. -/
theorem Check_all_pass (unicodeLower : GoString → GoString) (db : Db) (flags : Flags)
    (w : World) (rows : Rows) (md : Metadata) (verNums : List Int)
    (e : Option VersionError) (fld : GoString) (rest : List GoString)
    (hq : db.Query metadataSQL = .ok rows) (hr : readRow rows = (md, none))
    (hv : GetSQLVersion md.version = .ok (verNums, e))
    (hg : versionGate verNums
        (minVersion (GetSQLVariant unicodeLower flags.DBType md.dbComment)) = .ok none)
    (henc : encodingIssue md.charset md.collation = none)
    (hs : db.Select (countSQL (deriveDBname flags w).DBname) = .ok (fld :: rest))
    (hz : strings.TrimSpace fld ≠ str "0")
    (hf : tables.find? (fun t => spec.selectFails db (probeSQL t)) = none) :
    (Check unicodeLower db flags w).1.SiteMode = .SiteModeNormal
    ∧ (Check unicodeLower db flags w).2 = .returned true
    ∧ (Check unicodeLower db flags w).1.DBname = []
    ∧ (Check unicodeLower db flags w).1.dbCheckOK = true
    ∧ (Check unicodeLower db flags w).1.Issue = w.Issue
    ∧ issuesWritten (Check unicodeLower db flags w).1.trace = issuesWritten w.trace
    ∧ (w.Issue = [] → (Check unicodeLower db flags w).1.Issue = []) := by
  have hname := DBname_prelude flags w (GetSQLVariant unicodeLower flags.DBType md.dbComment)
  have hi := issuesWritten_prelude flags w
    (GetSQLVariant unicodeLower flags.DBType md.dbComment)
  have hI := (Issue_prelude flags w
    (GetSQLVariant unicodeLower flags.DBType md.dbComment)).1
  rw [Check_of_encoding_pass unicodeLower db flags w rows md verNums e hq hr hv hg henc]
  generalize ((deriveDBname flags w).emit (.query metadataSQL)).setDbVariant
    (GetSQLVariant unicodeLower flags.DBType md.dbComment) = w2 at hname hi hI
  rw [← hname] at hs
  rw [checkEmpty_of_nonempty db w2 fld rest hs hz, checkTables_eq, hf]
  refine ⟨rfl, rfl, rfl, rfl, hI, ?_, fun h0 => hI.trans h0⟩
  rw [← hi]
  simp only [World.setDbCheckOK, World.setDBname, World.setSiteMode, World.emit,
    List.append_assoc, issuesWritten_append, issuesWritten_probes]
  simp [issuesWritten]

/-- A healthy MySQL 8.0.31 with all tables gives normal mode and an empty issue when
the issue was empty before. -/
theorem Check_all_pass_witness :
    (Check id (fixture.dbOf (fixture.mysql (str "8.0.31")) (.ok [str "12"]) [])
        fixture.flags fixture.world).1.SiteMode = .SiteModeNormal
    ∧ (Check id (fixture.dbOf (fixture.mysql (str "8.0.31")) (.ok [str "12"]) [])
        fixture.flags fixture.world).1.DBname = []
    ∧ (Check id (fixture.dbOf (fixture.mysql (str "8.0.31")) (.ok [str "12"]) [])
        fixture.flags fixture.world).1.Issue = [] :=
  have h := Check_all_pass id
    (fixture.dbOf (fixture.mysql (str "8.0.31")) (.ok [str "12"]) [])
    fixture.flags fixture.world (fixture.rowsOf (fixture.mysql (str "8.0.31")))
    (fixture.mysql (str "8.0.31")) [8, 0, 31] none (str "12") [] rfl rfl
    (by decide) (by decide) (by decide) (by decide) (by decide) (by decide)
  ⟨h.1, h.2.2.1, h.2.2.2.2.2.2 rfl⟩

/-- Claim C13 as stated fails: started with a non-empty `Issue`, a run in which all
checks pass ends in `SiteModeNormal` with that issue still in place. -/
theorem Check_keeps_stale_issue :
    (Check id (fixture.dbOf (fixture.mysql (str "8.0.31")) (.ok [str "12"]) [])
        fixture.flags { fixture.world with Issue := str "stale" }).1.SiteMode
      = .SiteModeNormal
    ∧ (Check id (fixture.dbOf (fixture.mysql (str "8.0.31")) (.ok [str "12"]) [])
        fixture.flags { fixture.world with Issue := str "stale" }).2 = .returned true
    ∧ (Check id (fixture.dbOf (fixture.mysql (str "8.0.31")) (.ok [str "12"]) [])
        fixture.flags { fixture.world with Issue := str "stale" }).1.Issue = str "stale"
    ∧ str "stale" ≠ [] := by
  decide

/-! ### More facts about the library functions -/

/-- A string that contains a byte splits at its first occurrence. -/
theorem first_occurrence (sep : Nat) (s : GoString) (h : sep ∈ s) :
    ∃ pre post, s = pre ++ sep :: post ∧ sep ∉ pre := by
  induction s with
  | nil => simp at h
  | cons c cs ih =>
    by_cases hc : c = sep
    · exact ⟨[], cs, by simp [hc], by simp⟩
    · have hcs : sep ∈ cs := by
        rcases List.mem_cons.mp h with h | h
        · exact absurd h.symm hc
        · exact h
      obtain ⟨pre, post, hs, hpre⟩ := ih hcs
      refine ⟨c :: pre, post, by simp [hs], ?_⟩
      intro hm
      rcases List.mem_cons.mp hm with hm | hm
      · exact hc hm.symm
      · exact hpre hm

/-- The function `Split` never returns an empty list. -/
theorem Split_ne_nil (sep : Nat) (s : GoString) : strings.Split s sep ≠ [] := by
  by_cases h : sep ∈ s
  · obtain ⟨pre, post, hs, hpre⟩ := first_occurrence sep s h
    rw [hs, Split_append_sep sep pre post hpre]
    simp
  · rw [Split_of_not_mem sep s h]
    simp

/-- The bytes of every piece of a split are bytes of the string. -/
theorem Split_piece_subset (sep : Nat) (n : Nat) :
    ∀ s : GoString, s.length ≤ n →
      ∀ piece ∈ strings.Split s sep, ∀ c ∈ piece, c ∈ s := by
  induction n with
  | zero =>
    intro s hl piece hp c hc
    have hs : s = [] := List.length_eq_zero.mp (by omega)
    subst hs
    simp [strings.Split] at hp
    subst hp
    exact hc
  | succ n ih =>
    intro s hl piece hp c hc
    by_cases h : sep ∈ s
    · obtain ⟨pre, post, hs, hpre⟩ := first_occurrence sep s h
      rw [hs, Split_append_sep sep pre post hpre] at hp
      rw [hs]
      rcases List.mem_cons.mp hp with hp | hp
      · subst hp
        exact List.mem_append_left _ hc
      · have hlen : post.length ≤ n := by
          rw [hs] at hl
          simp only [List.length_append, List.length_cons] at hl
          omega
        exact List.mem_append_right _ (List.mem_cons_of_mem _ (ih post hlen piece hp c hc))
    · rw [Split_of_not_mem sep s h] at hp
      simp only [List.mem_singleton] at hp
      subst hp
      exact hc

/-- The value of `Index`: `-1` for a byte that does not occur, and otherwise the length of
the part before the first occurrence. -/
theorem Index_spec (sep : Nat) (s : GoString) :
    (sep ∉ s ∧ strings.Index s sep = -1)
    ∨ (∃ pre post, s = pre ++ sep :: post ∧ sep ∉ pre ∧ strings.Index s sep = pre.length) := by
  by_cases h : sep ∈ s
  · obtain ⟨pre, post, hs, hpre⟩ := first_occurrence sep s h
    exact Or.inr ⟨pre, post, hs, hpre, by rw [hs, Index_append_sep sep pre post hpre]⟩
  · exact Or.inl ⟨h, Index_of_not_mem sep s h⟩

/-- The digit loop succeeds on decimal digits only. -/
theorem parseDigits_ok_digits (s : GoString) :
    ∀ n m : Nat, strconv.parseDigits s n = .ok m → ∀ c ∈ s, 48 ≤ c ∧ c ≤ 57 := by
  induction s with
  | nil => intro n m _ c hc; simp at hc
  | cons d ds ih =>
    intro n m h c hc
    simp only [strconv.parseDigits] at h
    split_ifs at h with hd hr
    rcases List.mem_cons.mp hc with hc | hc
    · subst hc; exact hd
    · exact ih _ _ h c hc

/-- A string that `Atoi` converts has no hyphen after its first byte, and its value is
negative only if it starts with a hyphen. -/
theorem Atoi_ok_shape (c : Nat) (cs : GoString) (n : Int)
    (h : strconv.Atoi (c :: cs) = .ok n) :
    45 ∉ cs ∧ (c ≠ 45 → 0 ≤ n) := by
  simp only [strconv.Atoi] at h
  generalize hdg : (if c = 45 ∨ c = 43 then cs else c :: cs) = digits at h
  by_cases hnil : digits = []
  · simp [hnil] at h
  · rw [if_neg hnil] at h
    cases hp : strconv.parseDigits digits 0 with
    | error e => rw [hp] at h; simp at h
    | ok un =>
      rw [hp] at h
      simp only at h
      have hd := parseDigits_ok_digits digits 0 un hp
      have hcs : ∀ x ∈ cs, x ∈ digits := by
        intro x hx
        rw [← hdg]
        split_ifs
        · exact hx
        · exact List.mem_cons_of_mem _ hx
      refine ⟨fun hm => absurd (hd 45 (hcs 45 hm)) (by omega), ?_⟩
      intro hc
      rw [if_neg hc] at h
      split_ifs at h
      simp only [Except.ok.injEq] at h
      omega

/-- A string without hyphen that `Atoi` converts has a non-negative value. -/
theorem Atoi_nonneg_of_no_hyphen (val : GoString) (n : Int) (h : strconv.Atoi val = .ok n)
    (hno : 45 ∉ val) : 0 ≤ n := by
  cases val with
  | nil => simp [strconv.Atoi] at h
  | cons c cs =>
    exact (Atoi_ok_shape c cs n h).2 (fun hc => hno (by simp [hc]))

/-- The first piece of a split of a string that starts with another byte than the
separator starts with that byte. -/
theorem Split_cons_of_ne (sep c : Nat) (cs : GoString) (hc : c ≠ sep) :
    ∃ h t, strings.Split cs sep = h :: t ∧ strings.Split (c :: cs) sep = (c :: h) :: t := by
  cases hs : strings.Split cs sep with
  | nil => exact absurd hs (Split_ne_nil sep cs)
  | cons h t => exact ⟨h, t, rfl, by simp [strings.Split, hc, hs]⟩

/-- A version string with a hyphen as its second byte is never parsed: the result is an
error with the tuple [0, 0, 0]. -/
theorem GetSQLVersion_hyphen_at_one (x : Nat) (s : GoString) (hx : x ≠ 45) :
    ∃ err, GetSQLVersion (x :: 45 :: s) = .ok ([0, 0, 0], some err) := by
  have hidx : strings.Index (x :: 45 :: s) 45 = 1 := by
    have := Index_append_sep 45 [x] s (by simpa using Ne.symm hx)
    simpa using this
  have hst : spec.splitText (x :: 45 :: s) = x :: 45 :: s := by
    unfold spec.splitText
    rw [hidx, if_neg (by decide)]
  have hfirst : ∀ v0 rest, strings.Split (x :: 45 :: s) 46 = v0 :: rest →
      ∀ a, strconv.Atoi v0 ≠ .ok a := by
    intro v0 rest hsp a ha
    by_cases h46 : x = 46
    · subst h46
      simp only [strings.Split, if_true, List.cons.injEq] at hsp
      rw [← hsp.1] at ha
      simp [strconv.Atoi] at ha
    · obtain ⟨h, t, hs1, hs2⟩ := Split_cons_of_ne 46 x (45 :: s) h46
      obtain ⟨h', t', _, hs3⟩ := Split_cons_of_ne 46 45 s (by decide)
      rw [hs3] at hs1
      simp only [List.cons.injEq] at hs1
      rw [hs2, ← hs1.1] at hsp
      simp only [List.cons.injEq] at hsp
      rw [← hsp.1] at ha
      exact (Atoi_ok_shape x (45 :: h') a ha).1 (by simp)
  rw [GetSQLVersion_unfold, hst]
  rcases hsp : strings.Split (x :: 45 :: s) 46 with _ | ⟨v0, _ | ⟨v1, _ | ⟨v2, rest⟩⟩⟩
  · exact ⟨_, rfl⟩
  · exact ⟨_, rfl⟩
  · exact ⟨_, rfl⟩
  · simp only
    cases ha : strconv.Atoi v0 with
    | error e => exact ⟨_, rfl⟩
    | ok a => exact absurd ha (hfirst v0 _ hsp a)

/-- A version string of one byte gives the error for fewer than three pieces. -/
theorem GetSQLVersion_one_byte (x : Nat) (hx : x ≠ 45) :
    GetSQLVersion [x] = .ok ([0, 0, 0], some .notABC) := by
  have hst : spec.splitText [x] = [x] :=
    (splitText_of_no_hyphen [x] (by simpa using Ne.symm hx)).1
  rw [GetSQLVersion_eq, hst]
  by_cases h46 : x = 46
  · subst h46; rfl
  · simp [strings.Split, h46]

/-- Claim C15, amended. For every non-empty prefix p without hyphen and every string s,
`GetSQLVersion` on p followed by a hyphen and s gives the same tuple and the same
success or failure (or the same panic) as on p. When p has two bytes or more the input
is cut at that hyphen and the two results are identical. -/
theorem GetSQLVersion_cut_suffix (p s : GoString) (hp : 45 ∉ p) (hne : p ≠ []) :
    (GetSQLVersion (p ++ str "-" ++ s)).map (fun r => (r.1, r.2.isSome))
        = (GetSQLVersion p).map (fun r => (r.1, r.2.isSome))
    ∧ (1 < p.length → GetSQLVersion (p ++ str "-" ++ s) = GetSQLVersion p) := by
  have hcut : 1 < p.length → GetSQLVersion (p ++ str "-" ++ s) = GetSQLVersion p := by
    intro hl
    rw [GetSQLVersion_eq, GetSQLVersion_eq, str_dot_hyphen.2, List.append_assoc,
      List.singleton_append, (splitText_of_no_hyphen p hp).2 s hl,
      (splitText_of_no_hyphen p hp).1]
  refine ⟨?_, hcut⟩
  by_cases hl : 1 < p.length
  · rw [hcut hl]
  · match p, hne, hl, hp with
    | [x], _, _, hp =>
      have hx : x ≠ 45 := fun h => hp (by simp [h])
      obtain ⟨err, herr⟩ := GetSQLVersion_hyphen_at_one x s hx
      rw [str_dot_hyphen.2]
      simp only [List.singleton_append, List.cons_append, List.nil_append]
      rw [herr, GetSQLVersion_one_byte x hx]
      rfl
    | _ :: _ :: _, _, hl, _ => exact absurd (by simp) hl

/-- The suffix of "5.7.10-log" is ignored, and "5-7.10" fails like "5". -/
theorem GetSQLVersion_cut_suffix_witness :
    GetSQLVersion (str "5.7.10" ++ str "-" ++ str "log") = GetSQLVersion (str "5.7.10")
    ∧ (GetSQLVersion (str "5" ++ str "-" ++ str "7.10")).map (fun r => (r.1, r.2.isSome))
        = (GetSQLVersion (str "5")).map (fun r => (r.1, r.2.isSome)) :=
  ⟨(GetSQLVersion_cut_suffix (str "5.7.10") (str "log") (by decide) (by decide)).2
      (by decide),
   (GetSQLVersion_cut_suffix (str "5") (str "7.10") (by decide) (by decide)).1⟩

/-- Claim C15 as stated fails for the empty prefix: "-1.2.3" is parsed without error
to [-1, 2, 3], while the empty string gives an error with [0, 0, 0]. -/
theorem GetSQLVersion_empty_prefix :
    45 ∉ str ""
    ∧ GetSQLVersion (str "" ++ str "-" ++ str "1.2.3") = .ok ([-1, 2, 3], none)
    ∧ GetSQLVersion (str "") = .ok ([0, 0, 0], some .notABC) := by
  decide

/-- When `GetSQLVersion` returns without error, the text that it splits has exactly three
pieces, each converted by `Atoi`, and the tuple holds their values. -/
theorem GetSQLVersion_ok_pieces (v : GoString) (ints : List Int)
    (h : GetSQLVersion v = .ok (ints, none)) :
    ∃ (v0 v1 v2 : GoString) (a b c : Int),
      strings.Split (spec.splitText v) 46 = [v0, v1, v2]
      ∧ strconv.Atoi v0 = .ok a ∧ strconv.Atoi v1 = .ok b ∧ strconv.Atoi v2 = .ok c
      ∧ ints = [a, b, c] := by
  rw [GetSQLVersion_unfold] at h
  rcases hs : strings.Split (spec.splitText v) 46 with _ | ⟨v0, _ | ⟨v1, _ | ⟨v2, rest⟩⟩⟩
  · rw [hs] at h; simp at h
  · rw [hs] at h; simp at h
  · rw [hs] at h; simp at h
  · rw [hs] at h
    simp only at h
    cases h0 : strconv.Atoi v0 with
    | error e0 => rw [h0] at h; simp at h
    | ok a =>
      rw [h0] at h
      simp only at h
      cases h1 : strconv.Atoi v1 with
      | error e1 => rw [h1] at h; simp at h
      | ok b =>
        rw [h1] at h
        simp only at h
        cases h2 : strconv.Atoi v2 with
        | error e2 => rw [h2] at h; simp at h
        | ok c =>
          rw [h2] at h
          simp only at h
          cases rest with
          | nil =>
            simp only [Except.ok.injEq, Prod.mk.injEq, and_true] at h
            exact ⟨v0, v1, v2, a, b, c, rfl, h0, h1, h2, h.symm⟩
          | cons v3 rest2 =>
            simp only at h
            cases h3 : strconv.Atoi v3 with
            | error e3 => rw [h3] at h; simp at h
            | ok d => rw [h3] at h; simp at h

/-- Claim C16, amended. Every tuple that `GetSQLVersion` returns without error is a triple
of integers, and for every input that does not start with a hyphen the three of them
are non-negative. -/
theorem GetSQLVersion_nonneg (v : GoString) (ints : List Int)
    (h : GetSQLVersion v = .ok (ints, none)) :
    ∃ a b c : Int, ints = [a, b, c]
      ∧ (v.head? ≠ some 45 → 0 ≤ a ∧ 0 ≤ b ∧ 0 ≤ c) := by
  obtain ⟨v0, v1, v2, a, b, c, hs, h0, h1, h2, hi⟩ := GetSQLVersion_ok_pieces v ints h
  refine ⟨a, b, c, hi, ?_⟩
  intro hstart
  have hclean : 45 ∉ spec.splitText v := by
    rcases Index_spec 45 v with ⟨hno, _⟩ | ⟨pre, post, hv, hpre, _⟩
    · rw [(splitText_of_no_hyphen v hno).1]
      exact hno
    · match pre, hv, hpre with
      | [], hv, _ =>
        rw [hv] at hstart
        exact absurd rfl hstart
      | [x], hv, hpre =>
        have hx : x ≠ 45 := fun hx => hpre (by simp [hx])
        obtain ⟨err, herr⟩ := GetSQLVersion_hyphen_at_one x post hx
        rw [hv] at h
        simp only [List.singleton_append] at h
        rw [herr] at h
        simp at h
      | x :: y :: pre2, hv, hpre =>
        rw [hv, (splitText_of_no_hyphen (x :: y :: pre2) hpre).2 post (by simp)]
        exact hpre
  have hpiece : ∀ piece ∈ strings.Split (spec.splitText v) 46, 45 ∉ piece :=
    fun piece hp hm =>
      hclean (Split_piece_subset 46 _ (spec.splitText v) (le_refl _) piece hp 45 hm)
  rw [hs] at hpiece
  exact ⟨Atoi_nonneg_of_no_hyphen v0 a h0 (hpiece v0 (by simp)),
    Atoi_nonneg_of_no_hyphen v1 b h1 (hpiece v1 (by simp)),
    Atoi_nonneg_of_no_hyphen v2 c h2 (hpiece v2 (by simp))⟩

/-- The version string "10.3.0-MariaDB" gives three non-negative numbers. -/
theorem GetSQLVersion_nonneg_witness :
    ∃ a b c : Int, ([10, 3, 0] : List Int) = [a, b, c]
      ∧ ((str "10.3.0-MariaDB").head? ≠ some 45 → 0 ≤ a ∧ 0 ≤ b ∧ 0 ≤ c) :=
  GetSQLVersion_nonneg (str "10.3.0-MariaDB") [10, 3, 0] (by decide)

/-- Claim C16 as stated fails: "-5.7.10" is parsed without error and its major
component is negative. -/
theorem GetSQLVersion_negative_major :
    GetSQLVersion (str "-5.7.10") = .ok ([-5, 7, 10], none) ∧ (-5 : Int) < 0 := by
  decide

/-! ### Runs that the checks do not foresee -/

/-- Claim C17. A metadata query that succeeds without a row is not treated as a fetch
failure: no error is raised by reading the result set, `Check` goes on to detect the
variant and to parse the empty version string, and only the version loop ends the run,
with an issue about version element 1 instead of "no MySQL configuration return
issue: ". -/
theorem Check_no_row_reaches_version_gate :
    (∀ scan : Except GoString Metadata, readRow ⟨false, scan, none⟩ = (⟨[], [], [], []⟩, none))
    ∧ GetSQLVersion [] = .ok ([0, 0, 0], some .notABC)
    ∧ Check id fixture.noRowDb fixture.flags fixture.world
      = ({ fixture.world with
            DBname := str "documize"
            Issue := str "MySQL version element 1 of '' not high enough, need at least version 5.7.10"
            SiteMode := .SiteModeBadDB
            trace := [.setDBname (str "documize"), .query metadataSQL,
              .setDbVariant .DbVariantMySQL,
              .setIssue (str "MySQL version element 1 of '' not high enough, need at least version 5.7.10"),
              .setSiteMode .SiteModeBadDB] },
          .returned false)
    ∧ ¬ strings.HasPrefix
        (str "MySQL version element 1 of '' not high enough, need at least version 5.7.10")
        (str "no MySQL configuration return issue: ") = true := by
  refine ⟨fun scan => rfl, by decide, by decide, by decide⟩

/-- The version loop never reads outside the tuple that `GetSQLVersion` returns. -/
theorem versionGate_no_panic (v : GoString) (verNums : List Int) (e : Option VersionError)
    (variant : DbVariant) (h : GetSQLVersion v = .ok (verNums, e)) :
    ∃ r, versionGate verNums (minVersion variant) = .ok r := by
  obtain ⟨a1, a2, a3, rfl⟩ := triple_of_length verNums (GetSQLVersion_length _ _ _ h)
  obtain ⟨m1, m2, m3, hm⟩ := minVersion_triple variant
  rw [hm, versionGate_triple]
  split_ifs <;> exact ⟨_, rfl⟩

/-- Claim C14. `Check` does panic: on a server that reports the version "1.2.3.4" the
store `ints[key]` in `GetSQLVersion` is out of range, and on a count query that succeeds
without a row the read `flds[0]` is out of range. In both runs no mode is written. -/
theorem Check_panics :
    (Check id (fixture.dbOf (fixture.mysql (str "1.2.3.4")) (.ok [str "12"]) [])
        fixture.flags fixture.world).2 = .panicked (.indexOutOfRange 3 3)
    ∧ modesWritten (Check id (fixture.dbOf (fixture.mysql (str "1.2.3.4")) (.ok [str "12"]) [])
        fixture.flags fixture.world).1.trace = []
    ∧ (Check id (fixture.dbOf (fixture.mysql (str "8.0.31")) (.ok []) [])
        fixture.flags fixture.world).2 = .panicked (.indexOutOfRange 0 0)
    ∧ modesWritten (Check id (fixture.dbOf (fixture.mysql (str "8.0.31")) (.ok []) [])
        fixture.flags fixture.world).1.trace = [] := by
  decide

/-! ### The ways in which a run ends -/

/-- The steps between the derivation of the schema name and the count of the tables
keep the state. -/
theorem sameState_steps (w0 : World) (v : DbVariant) (sql : GoString) :
    spec.SameState w0 (w0.emit (.query metadataSQL))
    ∧ spec.SameState w0 ((w0.emit (.query metadataSQL)).setDbVariant v)
    ∧ spec.SameState w0 (((w0.emit (.query metadataSQL)).setDbVariant v).emit (.select sql)) := by
  simp [spec.SameState, World.emit, World.setDbVariant, issuesWritten, modesWritten]

/-- The probes keep the state. -/
theorem sameState_probes (w0 w1 : World) (ts : List GoString) (h : spec.SameState w0 w1) :
    spec.SameState w0
      { w1 with trace := w1.trace ++ ts.map (fun t => Event.select (probeSQL t)) } := by
  obtain ⟨h1, h2, h3, h4, h5, h6⟩ := h
  refine ⟨h1, h2, h3, h4, ?_, ?_⟩
  · simp only [issuesWritten_append, issuesWritten_probes, List.append_nil, h5]
  · simp only [modesWritten_append, modesWritten_probes, List.append_nil, h6]

/-- Every run of `Check` ends in one of four ways: through the failure exit with one
of the seven issue texts, in set-up mode, in normal mode, or in a panic. Up to that
point the state is the one left by the derivation of the schema name. -/
theorem Check_cases (unicodeLower : GoString → GoString) (db : Db) (flags : Flags)
    (w : World) :
    (∃ w1 issue, spec.SameState (deriveDBname flags w) w1
      ∧ Check unicodeLower db flags w = w1.badDB issue
      ∧ ((∃ err, db.Query metadataSQL = .error err
            ∧ issue = str "Can't get MySQL configuration: " ++ err)
        ∨ (∃ err, issue = str "no MySQL configuration return issue: " ++ err)
        ∨ (∃ k : Nat, k < 3 ∧ issue
            = str "MySQL version element " ++ strconv.Itoa (k + 1) ++ str " of '"
              ++ (spec.settings db).version
              ++ str "' not high enough, need at least version "
              ++ wantVersion (minVersion
                  (GetSQLVariant unicodeLower flags.DBType (spec.settings db).dbComment)))
        ∨ issue = str "MySQL character set not utf8/utf8mb4: " ++ (spec.settings db).charset
        ∨ issue = str "MySQL collation sequence not utf8...: " ++ (spec.settings db).collation
        ∨ (∃ err, db.Select (countSQL (deriveDBname flags w).DBname) = .error err
            ∧ issue = str "Can't get MySQL number of tables: " ++ err)
        ∨ (∃ table, table ∈ tables ∧ spec.selectFails db (probeSQL table) = true
            ∧ issue = str "MySQL database is not empty, but does not contain table: "
                ++ table)))
    ∨ (∃ w1, spec.SameState (deriveDBname flags w) w1
      ∧ Check unicodeLower db flags w = (w1.setSiteMode .SiteModeSetup, .returned false))
    ∨ (∃ w1, spec.SameState (deriveDBname flags w) w1
      ∧ Check unicodeLower db flags w
        = (((w1.setSiteMode .SiteModeNormal).setDBname []).setDbCheckOK, .returned true))
    ∨ (∃ w1 p, spec.SameState (deriveDBname flags w) w1
      ∧ Check unicodeLower db flags w = (w1, .panicked p)) := by
  have hsame := fun v sql => sameState_steps (deriveDBname flags w) v sql
  cases hq : db.Query metadataSQL with
  | error err =>
    refine Or.inl ⟨_, _, (hsame .DbVariantMySQL []).1, ?_, Or.inl ⟨err, rfl, rfl⟩⟩
    simp only [Check, hq]
  | ok rows =>
    rcases hr : readRow rows with ⟨md, _ | err⟩
    swap
    · refine Or.inl ⟨_, _, (hsame .DbVariantMySQL []).1, ?_, Or.inr (Or.inl ⟨err, rfl⟩)⟩
      simp only [Check, hq, hr]
    have hset : spec.settings db = md := by simp [spec.settings, hq, hr]
    rw [Check_of_metadata unicodeLower db flags w rows md hq hr, hset]
    have hs2 := (hsame (GetSQLVariant unicodeLower flags.DBType md.dbComment) []).2.1
    have hname := DBname_prelude flags w
      (GetSQLVariant unicodeLower flags.DBType md.dbComment)
    have hs3 := (hsame (GetSQLVariant unicodeLower flags.DBType md.dbComment)
      (countSQL (deriveDBname flags w).DBname)).2.2
    cases hv : GetSQLVersion md.version with
    | error p =>
      refine Or.inr (Or.inr (Or.inr ⟨_, p, hs2, ?_⟩))
      simp only [checkVersion, hv]
    | ok res =>
      obtain ⟨verNums, e⟩ := res
      cases hg : versionGate verNums
          (minVersion (GetSQLVariant unicodeLower flags.DBType md.dbComment)) with
      | error p =>
        refine Or.inr (Or.inr (Or.inr ⟨_, p, hs2, ?_⟩))
        simp only [checkVersion, hv, hg]
      | ok res =>
        cases res with
        | some k =>
          have hk : k < 3 := by
            obtain ⟨a1, a2, a3, rfl⟩ :=
              triple_of_length verNums (GetSQLVersion_length _ _ _ hv)
            obtain ⟨m1, m2, m3, hm⟩ :=
              minVersion_triple (GetSQLVariant unicodeLower flags.DBType md.dbComment)
            rw [hm] at hg
            exact (versionGate_fail_first a1 a2 a3 m1 m2 m3 k hg).1
          exact Or.inl ⟨_, _, hs2,
            checkVersion_of_gate_fail unicodeLower db flags md _ verNums e k hv hg,
            Or.inr (Or.inr (Or.inl ⟨k, hk, rfl⟩))⟩
        | none =>
          rw [checkVersion_of_gate_pass unicodeLower db flags md _ verNums e hv hg]
          generalize hw2 : ((deriveDBname flags w).emit (.query metadataSQL)).setDbVariant
            (GetSQLVariant unicodeLower flags.DBType md.dbComment) = w2 at hs2 hname hs3
          cases henc : encodingIssue md.charset md.collation with
          | some issue =>
            refine Or.inl ⟨w2, issue, hs2, by simp only [checkEncoding, henc], ?_⟩
            refine Or.inr (Or.inr (Or.inr ?_))
            unfold encodingIssue at henc
            split_ifs at henc
            · exact Or.inl (Option.some.inj henc).symm
            · exact Or.inr (Or.inl (Option.some.inj henc).symm)
          | none =>
            have hce : checkEncoding db md.charset md.collation w2 = checkEmpty db w2 := by
              simp only [checkEncoding, henc]
            rw [hce]
            cases hs : db.Select (countSQL (deriveDBname flags w).DBname) with
            | error err =>
              refine Or.inl ⟨_, str "Can't get MySQL number of tables: " ++ err, hs3, ?_, ?_⟩
              · simp only [checkEmpty, hname, hs]
              · exact Or.inr (Or.inr (Or.inr (Or.inr (Or.inr (Or.inl ⟨err, rfl, rfl⟩)))))
            | ok flds =>
              cases flds with
              | nil =>
                refine Or.inr (Or.inr (Or.inr ⟨_, .indexOutOfRange 0 0, hs3, ?_⟩))
                simp only [checkEmpty, hname, hs]
              | cons fld rest =>
                by_cases hz : strings.TrimSpace fld = str "0"
                · refine Or.inr (Or.inl ⟨_, hs3, ?_⟩)
                  simp only [checkEmpty, hname, hs, hz, if_true]
                · rw [← hname] at hs
                  rw [checkEmpty_of_nonempty db w2 fld rest hs hz, checkTables_eq, hname]
                  have hs4 := sameState_probes _ _ (spec.probed db tables) hs3
                  cases hf : tables.find? (fun t => spec.selectFails db (probeSQL t)) with
                  | some table =>
                    refine Or.inl ⟨_, _, hs4, rfl, ?_⟩
                    refine Or.inr (Or.inr (Or.inr (Or.inr (Or.inr (Or.inr ?_)))))
                    exact ⟨table, List.mem_of_find?_eq_some hf,
                      List.find?_some (p := fun t => spec.selectFails db (probeSQL t)) hf, rfl⟩
                  | none =>
                    exact Or.inr (Or.inr (Or.inl ⟨_, hs4, rfl⟩))

/-- The derivation of the schema name writes neither an issue nor a mode and leaves the
issue, the mode and the flag `dbCheckOK` as they are. -/
theorem deriveDBname_same (flags : Flags) (w : World) :
    (deriveDBname flags w).Issue = w.Issue
    ∧ (deriveDBname flags w).SiteMode = w.SiteMode
    ∧ (deriveDBname flags w).dbCheckOK = w.dbCheckOK
    ∧ issuesWritten (deriveDBname flags w).trace = issuesWritten w.trace
    ∧ modesWritten (deriveDBname flags w).trace = modesWritten w.trace := by
  simp only [deriveDBname]
  split_ifs <;> simp [World.setDBname, issuesWritten, modesWritten]

/-- A text that starts with a non-empty literal is not empty. -/
theorem literal_append_ne_nil (lit rest : GoString) (h : lit ≠ []) : lit ++ rest ≠ [] := by
  cases lit with
  | nil => exact absurd rfl h
  | cons c cs => simp

/-- Claim C18. Every run of `Check` that returns with the mode `SiteModeBadDB` has set
`Issue` exactly once, to a non-empty text that names the failing check and carries the
offending value or the error text: the configuration query or the reading of its row
with the error, the version element with the raw version string and the minimum, the
character set, the collation, the table count with the error, or the missing table. -/
theorem Check_badDB_issue (unicodeLower : GoString → GoString) (db : Db) (flags : Flags)
    (w : World) (b : Bool)
    (hret : (Check unicodeLower db flags w).2 = .returned b)
    (hbad : (Check unicodeLower db flags w).1.SiteMode = .SiteModeBadDB) :
    ∃ issue, issuesWritten (Check unicodeLower db flags w).1.trace
        = issuesWritten w.trace ++ [issue]
      ∧ (Check unicodeLower db flags w).1.Issue = issue
      ∧ issue ≠ []
      ∧ ((∃ err, db.Query metadataSQL = .error err
            ∧ issue = str "Can't get MySQL configuration: " ++ err)
        ∨ (∃ err, issue = str "no MySQL configuration return issue: " ++ err)
        ∨ (∃ k : Nat, k < 3 ∧ issue
            = str "MySQL version element " ++ strconv.Itoa (k + 1) ++ str " of '"
              ++ (spec.settings db).version
              ++ str "' not high enough, need at least version "
              ++ wantVersion (minVersion
                  (GetSQLVariant unicodeLower flags.DBType (spec.settings db).dbComment)))
        ∨ issue = str "MySQL character set not utf8/utf8mb4: " ++ (spec.settings db).charset
        ∨ issue = str "MySQL collation sequence not utf8...: " ++ (spec.settings db).collation
        ∨ (∃ err, db.Select (countSQL (deriveDBname flags w).DBname) = .error err
            ∧ issue = str "Can't get MySQL number of tables: " ++ err)
        ∨ (∃ table, table ∈ tables ∧ spec.selectFails db (probeSQL table) = true
            ∧ issue = str "MySQL database is not empty, but does not contain table: "
                ++ table)) := by
  have hd := deriveDBname_same flags w
  rcases Check_cases unicodeLower db flags w with
    ⟨w1, issue, hs, hc, hform⟩ | ⟨w1, hs, hc⟩ | ⟨w1, hs, hc⟩ | ⟨w1, p, hs, hc⟩
  · refine ⟨issue, ?_, ?_, ?_, hform⟩
    · rw [hc, ← hd.2.2.2.1, ← hs.2.2.2.2.1]
      simp [World.badDB, World.setIssue, World.setSiteMode, issuesWritten]
    · rw [hc]; rfl
    · rcases hform with ⟨err, _, h⟩ | ⟨err, h⟩ | ⟨k, _, h⟩ | h | h | ⟨err, _, h⟩
          | ⟨table, _, _, h⟩ <;> rw [h]
      · exact literal_append_ne_nil _ _ (by decide)
      · exact literal_append_ne_nil _ _ (by decide)
      · simp only [List.append_assoc]
        exact literal_append_ne_nil _ _ (by decide)
      · exact literal_append_ne_nil _ _ (by decide)
      · exact literal_append_ne_nil _ _ (by decide)
      · exact literal_append_ne_nil _ _ (by decide)
      · exact literal_append_ne_nil _ _ (by decide)
  · rw [hc] at hbad
    exact absurd hbad (by simp [World.setSiteMode])
  · rw [hc] at hbad
    exact absurd hbad (by simp [World.setSiteMode, World.setDBname, World.setDbCheckOK])
  · rw [hc] at hret
    exact absurd hret (by simp)

/-- A server set to latin1 is refused with one issue, which names the character set. -/
theorem Check_badDB_issue_witness :
    ∃ issue, issuesWritten (Check id
        (fixture.dbOf ⟨str "8.0.31", str "MySQL Community Server", str "latin1",
          str "latin1_swedish_ci"⟩ (.ok [str "12"]) [])
        fixture.flags fixture.world).1.trace = issuesWritten fixture.world.trace ++ [issue]
      ∧ issue ≠ [] :=
  have h := Check_badDB_issue id
    (fixture.dbOf ⟨str "8.0.31", str "MySQL Community Server", str "latin1",
      str "latin1_swedish_ci"⟩ (.ok [str "12"]) [])
    fixture.flags fixture.world false (by decide) (by decide)
  h.elim fun issue hi => ⟨issue, hi.1, hi.2.2.1⟩

/-- The result on the runs that return. A run of `Check` that returns, returns `true`
exactly when it ends with the mode `SiteModeNormal`, and then `dbCheckOK` is `true`; a run that returns `false`
ends in `SiteModeSetup` or `SiteModeBadDB` and leaves `dbCheckOK` as it was. -/
theorem Check_returns_true_iff (unicodeLower : GoString → GoString) (db : Db)
    (flags : Flags) (w : World) (b : Bool)
    (hret : (Check unicodeLower db flags w).2 = .returned b) :
    (b = true ↔ (Check unicodeLower db flags w).1.SiteMode = .SiteModeNormal)
    ∧ (b = true → (Check unicodeLower db flags w).1.dbCheckOK = true)
    ∧ (b = false →
        ((Check unicodeLower db flags w).1.SiteMode = .SiteModeSetup
          ∨ (Check unicodeLower db flags w).1.SiteMode = .SiteModeBadDB)
        ∧ (Check unicodeLower db flags w).1.dbCheckOK = w.dbCheckOK) := by
  have hd := deriveDBname_same flags w
  rcases Check_cases unicodeLower db flags w with
    ⟨w1, issue, hs, hc, _⟩ | ⟨w1, hs, hc⟩ | ⟨w1, hs, hc⟩ | ⟨w1, p, hs, hc⟩
  · rw [hc] at hret ⊢
    have hb : b = false := by
      simp only [World.badDB, Outcome.returned.injEq] at hret
      exact hret.symm
    subst hb
    refine ⟨by simp [World.badDB, World.setSiteMode], by simp, fun _ => ⟨Or.inr rfl, ?_⟩⟩
    show w1.dbCheckOK = w.dbCheckOK
    rw [hs.2.2.2.1, hd.2.2.1]
  · rw [hc] at hret ⊢
    have hb : b = false := by
      simp only [Outcome.returned.injEq] at hret
      exact hret.symm
    subst hb
    refine ⟨by simp [World.setSiteMode], by simp, fun _ => ⟨Or.inl rfl, ?_⟩⟩
    show w1.dbCheckOK = w.dbCheckOK
    rw [hs.2.2.2.1, hd.2.2.1]
  · rw [hc] at hret ⊢
    have hb : b = true := by
      simp only [Outcome.returned.injEq] at hret
      exact hret.symm
    subst hb
    exact ⟨by simp [World.setSiteMode, World.setDBname, World.setDbCheckOK], fun _ => rfl,
      by simp⟩
  · rw [hc] at hret
    exact absurd hret (by simp)

/-- A healthy server gives `true` and sets the flag; an empty schema gives `false` and
leaves the flag unset. -/
theorem Check_returns_true_iff_witness :
    (Check id (fixture.dbOf (fixture.mysql (str "8.0.31")) (.ok [str "12"]) [])
        fixture.flags fixture.world).1.dbCheckOK = true
    ∧ (Check id (fixture.dbOf (fixture.mysql (str "8.0.31")) (.ok [str "0"]) [])
        fixture.flags fixture.world).1.dbCheckOK = fixture.world.dbCheckOK :=
  ⟨(Check_returns_true_iff id
      (fixture.dbOf (fixture.mysql (str "8.0.31")) (.ok [str "12"]) [])
      fixture.flags fixture.world true (by decide)).2.1 rfl,
   ((Check_returns_true_iff id
      (fixture.dbOf (fixture.mysql (str "8.0.31")) (.ok [str "0"]) [])
      fixture.flags fixture.world false (by decide)).2.2 rfl).2⟩

/-! ### The schema name -/

/-- A split has more than one piece exactly when the separator occurs. -/
theorem Split_length_gt_one_iff (sep : Nat) (s : GoString) :
    (strings.Split s sep).length > 1 ↔ sep ∈ s := by
  constructor
  · intro h
    by_contra hno
    rw [Split_of_not_mem sep s hno] at h
    simp at h
  · intro h
    obtain ⟨pre, post, hs, hpre⟩ := first_occurrence sep s h
    rw [hs, Split_append_sep sep pre post hpre]
    have := List.length_pos.mpr (Split_ne_nil sep post)
    simp only [List.length_cons]
    omega

/-- The last piece of a split is what follows the last separator. -/
theorem Split_last (sep : Nat) (n : Nat) :
    ∀ s : GoString, s.length ≤ n → sep ∈ s →
      ∃ pre, s = pre ++ sep :: (strings.Split s sep).getLastD []
        ∧ sep ∉ (strings.Split s sep).getLastD [] := by
  induction n with
  | zero =>
    intro s hl h
    have hs : s = [] := List.length_eq_zero.mp (by omega)
    subst hs
    simp at h
  | succ n ih =>
    intro s hl h
    obtain ⟨pre, post, hs, hpre⟩ := first_occurrence sep s h
    have hlen : post.length ≤ n := by
      rw [hs] at hl
      simp only [List.length_append, List.length_cons] at hl
      omega
    have hlast : (strings.Split s sep).getLastD [] = (strings.Split post sep).getLastD [] := by
      rw [hs, Split_append_sep sep pre post hpre]
      cases hsp : strings.Split post sep with
      | nil => exact absurd hsp (Split_ne_nil sep post)
      | cons p ps => simp
    rw [hlast]
    by_cases hpost : sep ∈ post
    · obtain ⟨pre2, hp2, hno⟩ := ih post hlen hpost
      refine ⟨pre ++ sep :: pre2, ?_, hno⟩
      rw [hs]
      conv_lhs => rw [hp2]
      simp
    · rw [Split_of_not_mem sep post hpost]
      exact ⟨pre, by simpa using hs, by simpa using hpost⟩

/-- The first piece of a split is what precedes the first separator. -/
theorem Split_head (sep : Nat) (s : GoString) :
    sep ∉ (strings.Split s sep).headD []
    ∧ ((sep ∉ s ∧ (strings.Split s sep).headD [] = s)
      ∨ ∃ tail, s = (strings.Split s sep).headD [] ++ sep :: tail) := by
  by_cases h : sep ∈ s
  · obtain ⟨pre, post, hs, hpre⟩ := first_occurrence sep s h
    have hh : (strings.Split s sep).headD [] = pre := by
      rw [hs, Split_append_sep sep pre post hpre]
      rfl
    rw [hh]
    exact ⟨hpre, Or.inr ⟨post, hs⟩⟩
  · rw [Split_of_not_mem sep s h]
    exact ⟨h, Or.inl ⟨h, rfl⟩⟩

/-- The bytes of the slash and of the question mark. -/
theorem str_slash_question : str "/" = [47] ∧ str "?" = [63] := by decide

/-- Claim C19. For a connection string that contains a slash, `Check` sets the schema
name to the text after the last slash, up to but not including the first question mark
that follows it, and to the whole of that text when it has no question mark; the name
has neither slash nor question mark. For a connection string without slash the schema
name is left as it was. This is the name the run works with: it is still in place when
`Check` ends, unless `Check` returns `true`, where the name is cleared. -/
theorem Check_derives_DBname (unicodeLower : GoString → GoString) (db : Db)
    (flags : Flags) (w : World) :
    (47 ∈ flags.DBConn →
      ∃ pre seg name, flags.DBConn = pre ++ str "/" ++ seg ∧ 47 ∉ seg
        ∧ ((63 ∉ seg ∧ name = seg) ∨ ∃ tail, seg = name ++ str "?" ++ tail)
        ∧ 47 ∉ name ∧ 63 ∉ name
        ∧ deriveDBname flags w = w.setDBname name)
    ∧ (47 ∉ flags.DBConn → deriveDBname flags w = w)
    ∧ ((Check unicodeLower db flags w).2 ≠ .returned true →
        (Check unicodeLower db flags w).1.DBname = (deriveDBname flags w).DBname) := by
  refine ⟨?_, ?_, ?_⟩
  · intro h
    obtain ⟨pre, hs, hno⟩ := Split_last 47 _ flags.DBConn (le_refl _) h
    have hhead := Split_head 63 ((strings.Split flags.DBConn 47).getLastD [])
    refine ⟨pre, (strings.Split flags.DBConn 47).getLastD [],
      (strings.Split ((strings.Split flags.DBConn 47).getLastD []) 63).headD [], ?_, hno, ?_,
      ?_, hhead.1, ?_⟩
    · rw [str_slash_question.1]
      simpa using hs
    · rcases hhead.2 with ⟨h1, h2⟩ | ⟨tail, ht⟩
      · exact Or.inl ⟨h1, h2⟩
      · refine Or.inr ⟨tail, ?_⟩
        rw [str_slash_question.2]
        simpa using ht
    · intro hm
      rcases hhead.2 with ⟨_, h2⟩ | ⟨tail, ht⟩
      · rw [h2] at hm
        exact hno hm
      · apply hno
        rw [ht]
        exact List.mem_append_left _ hm
    · simp only [deriveDBname]
      rw [if_pos ((Split_length_gt_one_iff 47 flags.DBConn).mpr h)]
  · intro h
    simp only [deriveDBname]
    rw [if_neg (fun hl => h ((Split_length_gt_one_iff 47 flags.DBConn).mp hl))]
  · intro hnt
    rcases Check_cases unicodeLower db flags w with
      ⟨w1, issue, hs, hc, _⟩ | ⟨w1, hs, hc⟩ | ⟨w1, hs, hc⟩ | ⟨w1, p, hs, hc⟩
    · rw [hc]
      exact hs.1
    · rw [hc]
      exact hs.1
    · rw [hc] at hnt
      exact absurd rfl hnt
    · rw [hc]
      exact hs.1

/-- The connection string of the example gives the schema name "documize", and a
connection string without slash leaves the name alone. -/
theorem Check_derives_DBname_witness :
    (∃ pre seg name, fixture.flags.DBConn = pre ++ str "/" ++ seg ∧ 47 ∉ seg
        ∧ ((63 ∉ seg ∧ name = seg) ∨ ∃ tail, seg = name ++ str "?" ++ tail)
        ∧ 47 ∉ name ∧ 63 ∉ name
        ∧ deriveDBname fixture.flags fixture.world = fixture.world.setDBname name)
    ∧ deriveDBname fixture.flags fixture.world = fixture.world.setDBname (str "documize")
    ∧ deriveDBname ⟨str "documize", str "mysql"⟩ fixture.world = fixture.world :=
  ⟨(Check_derives_DBname id fixture.noRowDb fixture.flags fixture.world).1 (by decide),
   by decide,
   (Check_derives_DBname id fixture.noRowDb ⟨str "documize", str "mysql"⟩
      fixture.world).2.1 (by decide)⟩

/-! ### Runs that panic -/

/-- Claim C1. The first applicable rule does not give the mode for every combination of
query outcomes. On a server that reports the version "1.2.3.4" no rule of the list
applies, so the list gives `SiteModeNormal`, yet `Check` panics in `GetSQLVersion` and
writes no mode at all; the same happens when the count query succeeds without a row, where
`Check` panics on `flds[0]`. -/
theorem Check_panic_defeats_rule_order :
    spec.decideMode (spec.findings id
        (fixture.dbOf (fixture.mysql (str "1.2.3.4")) (.ok [str "12"]) [])
        fixture.flags fixture.world) = .SiteModeNormal
    ∧ (Check id (fixture.dbOf (fixture.mysql (str "1.2.3.4")) (.ok [str "12"]) [])
        fixture.flags fixture.world).2 = .panicked (.indexOutOfRange 3 3)
    ∧ modesWritten (Check id (fixture.dbOf (fixture.mysql (str "1.2.3.4")) (.ok [str "12"]) [])
        fixture.flags fixture.world).1.trace = []
    ∧ spec.decideMode (spec.findings id
        (fixture.dbOf (fixture.mysql (str "8.0.31")) (.ok []) [])
        fixture.flags fixture.world) = .SiteModeNormal
    ∧ (Check id (fixture.dbOf (fixture.mysql (str "8.0.31")) (.ok []) [])
        fixture.flags fixture.world).2 = .panicked (.indexOutOfRange 0 0)
    ∧ modesWritten (Check id (fixture.dbOf (fixture.mysql (str "8.0.31")) (.ok []) [])
        fixture.flags fixture.world).1.trace = [] := by
  decide

/-- Claim C20. `Check` can end with the mode `SiteModeNormal` without returning `true`:
started in the zero state on a server that reports the version "1.2.3.4", it panics in
`GetSQLVersion`, so it returns nothing, while `SiteMode` still has its initial value
`SiteModeNormal` and `dbCheckOK` is still `false`. -/
theorem Check_panic_ends_normal_without_true :
    fixture.world.SiteMode = .SiteModeNormal
    ∧ (Check id (fixture.dbOf (fixture.mysql (str "1.2.3.4")) (.ok [str "12"]) [])
        fixture.flags fixture.world).2 = .panicked (.indexOutOfRange 3 3)
    ∧ (Check id (fixture.dbOf (fixture.mysql (str "1.2.3.4")) (.ok [str "12"]) [])
        fixture.flags fixture.world).2 ≠ .returned true
    ∧ (Check id (fixture.dbOf (fixture.mysql (str "1.2.3.4")) (.ok [str "12"]) [])
        fixture.flags fixture.world).1.SiteMode = .SiteModeNormal
    ∧ (Check id (fixture.dbOf (fixture.mysql (str "1.2.3.4")) (.ok [str "12"]) [])
        fixture.flags fixture.world).1.dbCheckOK = false := by
  decide
